import Mathlib

/-!
# Status aggregation and status grouping of the formica controller

A shallow embedding of `controller/status.go`, followed by the validator and
the construction of the submit request as the spec and the tests of the
repository describe them.  Go strings are Lean strings
(sequences of code points; the only separator the code splits on is the
ASCII character `|`, so splitting by code point and by byte agree on valid
UTF-8).  Go slices are lists.  A Go function returning `(value, error)` is a
function returning the value together with an optional error, or an
`Except` where the value is not produced on the error path.
-/

set_option autoImplicit false

namespace Formica

/-! ## Errors (package `controller`, file `error.go`) -/

/-- The cause an error value carries.  `invalidUnitStatusError` and
`invalidArgumentError` are the two error variables of the controller package
that `status.go` uses; `foreign` stands for an error value created by another
package (here: the error `common.SliceID` returns); the other eight are the
kinds of the validator, one for each predicate its tests use
(`IsNoUnitsInGroup`, `IsAtInGroupNameError`, `IsBadUnitPrefix`,
`IsMultipleAtInUnitName`, `IsUnitsSameName`, `IsMixedSliceInstance`,
`IsGroupsSameName`, `IsGroupsArePrefix`). -/
inductive ErrorCause where
  | invalidUnitStatusError
  | invalidArgumentError
  | foreign (description : String)
  | noUnitsInGroupError
  | atInGroupNameError
  | badUnitPrefixError
  | multipleAtInUnitNameError
  | unitsSameNameError
  | mixedSliceInstanceError
  | groupsSameNameError
  | groupsArePrefixError
  deriving DecidableEq, Repr

/-- An error value: its cause and the text attached when it was masked. -/
structure Error where
  cause : ErrorCause
  message : String
  deriving DecidableEq, Repr

/-- Modelled from the spec: `error.go` is not part of the sources at hand; the
spec says "all errors bubble to the caller unchanged in kind", so masking keeps
the error as it is. -/
def maskAny (err : Error) : Error := err

/-- Modelled from the spec: `error.go` is not part of the sources at hand;
masking with a formatted text keeps the cause ("unchanged in kind") and
attaches the text ("including the tuple in the message"). -/
def maskAnyf (cause : ErrorCause) (message : String) : Error :=
  { cause := cause, message := message }

/-- The error variable `invalidUnitStatusError`. -/
def invalidUnitStatusError : Error :=
  { cause := ErrorCause.invalidUnitStatusError, message := "" }

/-- The error variable `invalidArgumentError`. -/
def invalidArgumentError : Error :=
  { cause := ErrorCause.invalidArgumentError, message := "" }

/-- Modelled from the spec: `error.go` is not part of the sources at hand; the
spec gives every error kind a predicate, used by the tests as
`IsInvalidUnitStatus`: it holds when the cause is `invalidUnitStatusError`. -/
def IsInvalidUnitStatus (err : Error) : Bool :=
  decide (err.cause = ErrorCause.invalidUnitStatusError)

/-- Modelled from the spec: `error.go` is not part of the sources at hand; the
predicate of the kind `InvalidArgument`. -/
def IsInvalidArgument (err : Error) : Bool :=
  decide (err.cause = ErrorCause.invalidArgumentError)

/-! ## Fleet data (package `fleet`) -/

/-- The type `fleet.MachineStatus`, with the fields the controller and its
tests use. -/
structure MachineStatus where
  ID : String
  IP : List Nat
  SystemdActive : String
  SystemdSub : String
  UnitHash : String
  deriving DecidableEq, Repr

/-- The type `fleet.UnitStatus`, with the fields the controller and its tests
use. -/
structure UnitStatus where
  Current : String
  Desired : String
  Machine : List MachineStatus
  Name : String
  SliceID : String
  deriving DecidableEq, Repr

/-! ## Status and the rule table -/

/-- The type `Status`, a Go string type. -/
abbrev Status := String

def StatusFailed : Status := "failed"
def StatusNotFound : Status := "not-found"
def StatusRunning : Status := "running"
def StatusStarting : Status := "starting"
def StatusStopped : Status := "stopped"
def StatusStopping : Status := "stopping"

/-- The type `StatusContext`: a row of the rule table. -/
structure StatusContext where
  FleetCurrent : String
  FleetDesired : String
  SystemdActive : String
  SystemdSub : String
  Aggregated : Status
  deriving DecidableEq, Repr

/-- The variable `StatusIndex`: the aggregated states of a unit. -/
def StatusIndex : List StatusContext :=
  [ { FleetCurrent := "inactive", FleetDesired := "launched",
      SystemdActive := "active", SystemdSub := "running",
      Aggregated := StatusRunning },
    { FleetCurrent := "inactive", FleetDesired := "*",
      SystemdActive := "*", SystemdSub := "*",
      Aggregated := StatusStopped },
    { FleetCurrent := "loaded|launched", FleetDesired := "*",
      SystemdActive := "inactive", SystemdSub := "*",
      Aggregated := StatusStopped },
    { FleetCurrent := "loaded|launched", FleetDesired := "*",
      SystemdActive := "failed", SystemdSub := "*",
      Aggregated := StatusFailed },
    { FleetCurrent := "loaded|launched", FleetDesired := "*",
      SystemdActive := "activating", SystemdSub := "*",
      Aggregated := StatusStarting },
    { FleetCurrent := "loaded|launched", FleetDesired := "*",
      SystemdActive := "deactivating", SystemdSub := "*",
      Aggregated := StatusStopping },
    { FleetCurrent := "loaded|launched", FleetDesired := "*",
      SystemdActive := "active|reloading",
      SystemdSub := "stop-sigterm|stop-post|stop",
      Aggregated := StatusStopping },
    { FleetCurrent := "loaded|launched", FleetDesired := "*",
      SystemdActive := "active|reloading",
      SystemdSub := "auto-restart|launched|start-pre|start-pre|start-post|start|dead",
      Aggregated := StatusStarting },
    { FleetCurrent := "loaded|launched", FleetDesired := "*",
      SystemdActive := "active|reloading", SystemdSub := "exited|running",
      Aggregated := StatusRunning } ]

/-! ## The aggregator -/

/-- Splitting a sequence of characters at every occurrence of `sep`: the
pieces between the separators, in order (one piece more than there are
separators). -/
def splitChars (sep : Char) : List Char → List (List Char)
  | [] => [[]]
  | c :: cs =>
    if c = sep then [] :: splitChars sep cs
    else
      match splitChars sep cs with
      | [] => [[c]]
      | piece :: pieces => (c :: piece) :: pieces

/-- The call `strings.Split(s, sep)` of the Go library for a separator of one
character, the only form `status.go` uses (`strings.Split(indexed, "|")`). -/
def stringsSplit (s : String) (sep : Char) : List String :=
  (splitChars sep s.data).map String.mk

/-- The method `Aggregator.matchState`. -/
def matchState (indexed remote : String) : Bool :=
  if indexed = "*" then
    -- When the indexed state is "*", we accept all states.
    true
  else
    -- true as soon as one piece is equal to the remote state
    (stringsSplit indexed '|').any (fun splitted => decide (splitted = remote))

/-- The body of the loop of `AggregateStatus` over the rest of the table: a
row failing one of the four tests is skipped (`continue`), the others add
their status to the collected ones. -/
def collectStatuses (fc fd sa ss : String) : List StatusContext → List Status
  | [] => []
  | statusContext :: rest =>
    if !matchState statusContext.FleetCurrent fc then collectStatuses fc fd sa ss rest
    else if !matchState statusContext.FleetDesired fd then collectStatuses fc fd sa ss rest
    else if !matchState statusContext.SystemdActive sa then collectStatuses fc fd sa ss rest
    else if !matchState statusContext.SystemdSub ss then collectStatuses fc fd sa ss rest
    else statusContext.Aggregated :: collectStatuses fc fd sa ss rest

/-- The text both the error and the warning of `AggregateStatus` carry. -/
def tupleText (fc fd sa ss : String) : String :=
  "fc: " ++ fc ++ ", fd: " ++ fd ++ ", sa: " ++ sa ++ ", ss: " ++ ss

/-- What a call of `AggregateStatus` gives: the two Go results and the
warnings handed to the logger during the call. -/
structure Aggregation where
  status : Status
  err : Option Error
  warnings : List String
  deriving DecidableEq, Repr

/-- The method `Aggregator.AggregateStatus`. -/
def AggregateStatus (fc fd sa ss : String) : Aggregation :=
  let aggregatedStatuses := collectStatuses fc fd sa ss StatusIndex
  let numAggregatedStatuses := aggregatedStatuses.length
  match aggregatedStatuses with
  | [] =>
    { status := "",
      err := some (maskAnyf ErrorCause.invalidUnitStatusError (tupleText fc fd sa ss)),
      warnings := [] }
  | first :: _ =>
    { status := first,
      err := none,
      warnings :=
        if numAggregatedStatuses > 1 then
          ["Multiple statuses found for: " ++ tupleText fc fd sa ss]
        else [] }

/-- What a call of `UnitHasStatus` gives: the two Go results and, in order, the
outcome of every call of `AggregateStatus` made on the way. -/
structure HasStatus where
  result : Bool
  err : Option Error
  aggregations : List Aggregation
  deriving DecidableEq, Repr

/-- The loop of `UnitHasStatus` over the rest of the machines of `us`. -/
def unitHasStatusLoop (us : UnitStatus) (statuses : List Status) :
    List MachineStatus → HasStatus
  | [] => { result := false, err := none, aggregations := [] }
  | ms :: rest =>
    let aggregation := AggregateStatus us.Current us.Desired ms.SystemdActive ms.SystemdSub
    match aggregation.err with
    | some err => { result := false, err := some (maskAny err), aggregations := [aggregation] }
    | none =>
      if statuses.any (fun status => decide (aggregation.status = status)) then
        { result := true, err := none, aggregations := [aggregation] }
      else
        let later := unitHasStatusLoop us statuses rest
        { later with aggregations := aggregation :: later.aggregations }

/-- The method `Aggregator.UnitHasStatus`. -/
def UnitHasStatus (us : UnitStatus) (statuses : List Status) : HasStatus :=
  if statuses.length = 0 then
    { result := false, err := some (maskAny invalidArgumentError), aggregations := [] }
  else
    unitHasStatusLoop us statuses us.Machine

/-! ## Helpers of package `common` -/

/-- The three helpers of package `common` that `status.go` calls.  Their
source is not at hand, so the grouping functions take them as a parameter:
`SliceID` is `common.SliceID`, `UnitBase` is `common.UnitBase` and
`ExtExpStrip name` is `common.ExtExp.ReplaceAllString(name, "")`. -/
structure Common where
  SliceID : String → Except Error String
  UnitBase : String → String
  ExtExpStrip : String → String

/-- The call `strings.HasSuffix(s, suffix)` of the Go library. -/
def stringsHasSuffix (s suffix : String) : Bool :=
  suffix.data.isSuffixOf s.data

/-! ## The status grouper -/

deriving instance DecidableEq for Except

/-- The method `unitStatusesBySliceID`. -/
def unitStatusesBySliceID (usl : List UnitStatus) (sliceID : String) : List UnitStatus :=
  usl.filter (fun us => decide (us.SliceID = sliceID))

/-- The function `groupUnitStatus`: the subset of `usl` together with the
slice ID of `groupMember`. -/
def groupUnitStatus (c : Common) (usl : List UnitStatus) (groupMember : UnitStatus) :
    Except Error (List UnitStatus × String) :=
  match c.SliceID groupMember.Name with
  | .error _ => .error (maskAny invalidUnitStatusError)
  | .ok ID =>
    .ok (usl.filter (fun us => stringsHasSuffix (c.ExtExpStrip us.Name) ID), ID)

/-- The type `unitHashInfo`. -/
structure unitHashInfo where
  Base : String
  SliceID : String
  Hash : String
  deriving DecidableEq, Repr

/-- The innermost loop of `groupUnitHashInfos`, over the rest of the machines
of `us1`. -/
def hashInfosOfMachines (c : Common) (us1 : UnitStatus) :
    List MachineStatus → Except Error (List unitHashInfo)
  | [] => .ok []
  | m1 :: rest =>
    match c.SliceID us1.Name with
    | .error err => .error (maskAny err)
    | .ok sliceID =>
      match hashInfosOfMachines c us1 rest with
      | .error err => .error err
      | .ok uhis =>
        .ok ({ Base := c.UnitBase us1.Name, SliceID := sliceID, Hash := m1.UnitHash } :: uhis)

/-- The middle loop of `groupUnitHashInfos`, over the rest of the second
copy of the list. -/
def hashInfosOfPeers (c : Common) (us1 : UnitStatus) :
    List UnitStatus → Except Error (List unitHashInfo)
  | [] => .ok []
  | us2 :: rest =>
    if c.UnitBase us1.Name ≠ c.UnitBase us2.Name then hashInfosOfPeers c us1 rest
    else
      match hashInfosOfMachines c us1 us1.Machine with
      | .error err => .error err
      | .ok uhis =>
        match hashInfosOfPeers c us1 rest with
        | .error err => .error err
        | .ok more => .ok (uhis ++ more)

/-- The outer loop of `groupUnitHashInfos`, over the rest of the first copy
of the list. -/
def hashInfosOfUnits (c : Common) (usl : List UnitStatus) :
    List UnitStatus → Except Error (List unitHashInfo)
  | [] => .ok []
  | us1 :: rest =>
    match hashInfosOfPeers c us1 usl with
    | .error err => .error err
    | .ok uhis =>
      match hashInfosOfUnits c usl rest with
      | .error err => .error err
      | .ok more => .ok (uhis ++ more)

/-- The function `groupUnitHashInfos`. -/
def groupUnitHashInfos (c : Common) (usl : List UnitStatus) :
    Except Error (List unitHashInfo) :=
  hashInfosOfUnits c usl usl

/-- The function `allHashesEqual`. -/
def allHashesEqual (c : Common) (usl : List UnitStatus) : Except Error Bool :=
  match groupUnitHashInfos c usl with
  | .error err => .error (maskAny err)
  | .ok uhis =>
    .ok (uhis.all (fun uhi1 => uhis.all (fun uhi2 =>
      if uhi1.Base ≠ uhi2.Base then true
      else if uhi1.Hash ≠ uhi2.Hash then false
      else true)))

/-- The function `allStatesEqual`. -/
def allStatesEqual (usl : List UnitStatus) : Bool :=
  usl.all (fun us1 => usl.all (fun us2 =>
    if us1.Current ≠ us2.Current then false
    else if us1.Desired ≠ us2.Desired then false
    else us1.Machine.all (fun m1 => us2.Machine.all (fun m2 =>
      if m1.SystemdActive ≠ m2.SystemdActive then false else true))))

/-- How a call of `Group` can end without a list: with an error value, or
with the run-time fault of reading `grouped[0]` of an empty slice. -/
inductive Fault where
  | failed (err : Error)
  | indexOutOfRange
  deriving DecidableEq, Repr

/-- The loop of `Group` over the rest of the list; `matchers` holds the keys
of the Go map (the slice IDs already handled), `newList` the rows so far. -/
def groupLoop (c : Common) (usl : List UnitStatus) (hashesEqual : Bool) :
    List UnitStatus → List String → List UnitStatus → Except Fault (List UnitStatus)
  | [], _, newList => .ok newList
  | us :: rest, matchers, newList =>
    match groupUnitStatus c usl us with
    | .error err => .error (Fault.failed (maskAny err))
    | .ok (grouped, suffix) =>
      -- Prevent doubled aggregation.
      if matchers.contains suffix then groupLoop c usl hashesEqual rest matchers newList
      else
        let statesEqual := allStatesEqual grouped
        if hashesEqual && statesEqual then
          match grouped with
          | [] => .error Fault.indexOutOfRange
          | first :: _ =>
            groupLoop c usl hashesEqual rest (suffix :: matchers)
              (newList ++ [{ first with Name := "*" }])
        else
          groupLoop c usl hashesEqual rest (suffix :: matchers) (newList ++ grouped)

/-- The method `UnitStatusList.Group`. -/
def Group (c : Common) (usl : List UnitStatus) : Except Fault (List UnitStatus) :=
  match allHashesEqual c usl with
  | .error err => .error (Fault.failed (maskAny err))
  | .ok hashesEqual => groupLoop c usl hashesEqual usl [] []

/-! ## The helpers of package `common`, read from the spec -/

/-- Modelled from the spec: `common.ExtExp` is not part of the sources at
hand; the "name with extension stripped" is the characters of the name before
its last `.`, all of them when there is no `.`. -/
def dropExtension (name : List Char) : List Char :=
  if name.contains '.' then (name.reverse.dropWhile (fun ch => ch ≠ '.')).reverse.dropLast
  else name

/-- Modelled from the spec: the helpers of package `common` are not part of
the sources at hand.  A unit name has the form `<base>[@<slice>].<ext>`; the
name "with extension stripped" loses its last `.` and what follows; the slice
identifier "is the segment between `@` and `.`", empty for a name without
`@` (the slice is optional), and a name with more than one `@` breaks the
invariant "Name contains at most one `@`" and cannot be parsed; the unit base
is the "name with slice suffix stripped", the part before the `@`. -/
def specCommon : Common where
  SliceID := fun name =>
    match splitChars '@' (dropExtension name.data) with
    | [_] => .ok ""
    | [_, slice] => .ok (String.mk slice)
    | _ => .error { cause := ErrorCause.foreign "common: invalid argument", message := name }
  UnitBase := fun name =>
    match splitChars '@' (dropExtension name.data) with
    | base :: _ => String.mk base
    | [] => ""
  ExtExpStrip := fun name => String.mk (dropExtension name.data)

/-! ## The rule table as the spec words it -/

/-- A pattern field as the spec describes it: the star, or a list of literal
tokens. -/
inductive SpecPattern where
  | star
  | oneOf (tokens : List String)
  deriving DecidableEq, Repr

/-- The spec: the star "matches any value"; a list of literal tokens "matches
iff the observed value equals one of them exactly". -/
def SpecPattern.accepts : SpecPattern → String → Bool
  | SpecPattern.star, _ => true
  | SpecPattern.oneOf tokens, value => tokens.contains value

/-- A row of the canonical rule table of the spec. -/
structure SpecRow where
  fc : SpecPattern
  fd : SpecPattern
  sa : SpecPattern
  ss : SpecPattern
  status : Status
  deriving DecidableEq, Repr

/-- A row of the spec matches when its four patterns all match. -/
def SpecRow.accepts (row : SpecRow) (fc fd sa ss : String) : Bool :=
  row.fc.accepts fc && row.fd.accepts fd && row.sa.accepts sa && row.ss.accepts ss

/-- The canonical rule table, row by row as the spec prints it. -/
def specRuleTable : List SpecRow :=
  [ { fc := .oneOf ["inactive"], fd := .oneOf ["launched"], sa := .oneOf ["active"],
      ss := .oneOf ["running"], status := "running" },
    { fc := .oneOf ["inactive"], fd := .star, sa := .star, ss := .star, status := "stopped" },
    { fc := .oneOf ["loaded", "launched"], fd := .star, sa := .oneOf ["inactive"],
      ss := .star, status := "stopped" },
    { fc := .oneOf ["loaded", "launched"], fd := .star, sa := .oneOf ["failed"],
      ss := .star, status := "failed" },
    { fc := .oneOf ["loaded", "launched"], fd := .star, sa := .oneOf ["activating"],
      ss := .star, status := "starting" },
    { fc := .oneOf ["loaded", "launched"], fd := .star, sa := .oneOf ["deactivating"],
      ss := .star, status := "stopping" },
    { fc := .oneOf ["loaded", "launched"], fd := .star, sa := .oneOf ["active", "reloading"],
      ss := .oneOf ["stop-sigterm", "stop-post", "stop"], status := "stopping" },
    { fc := .oneOf ["loaded", "launched"], fd := .star, sa := .oneOf ["active", "reloading"],
      ss := .oneOf ["auto-restart", "launched", "start-pre", "start-post", "start", "dead"],
      status := "starting" },
    { fc := .oneOf ["loaded", "launched"], fd := .star, sa := .oneOf ["active", "reloading"],
      ss := .oneOf ["exited", "running"], status := "running" } ]

/-- What the spec lets a caller observe of an aggregation: the status, the
kind of the failure if any, and whether a warning was emitted. -/
structure SpecOutcome where
  status : Status
  failure : Option ErrorCause
  warned : Bool
  deriving DecidableEq, Repr

/-- The aggregation as the spec words it: scan the table in order, collect
every matching row; zero matches fail with InvalidUnitStatus, one match
returns that row's status, more than one warn and return the first. -/
def specAggregateStatus (fc fd sa ss : String) : SpecOutcome :=
  match specRuleTable.filter (fun row => row.accepts fc fd sa ss) with
  | [] => { status := "", failure := some ErrorCause.invalidUnitStatusError, warned := false }
  | [row] => { status := row.status, failure := none, warned := false }
  | first :: _ :: _ => { status := first.status, failure := none, warned := true }

/-- What a caller observes of an outcome of the code. -/
def Aggregation.outcome (a : Aggregation) : SpecOutcome :=
  { status := a.status,
    failure := a.err.map (fun err => err.cause),
    warned := decide (a.warnings ≠ []) }

/-! ## The validator (`validator.go`), read from the spec and its tests -/

/-- The type `Unit` of the controller: a name and the content of the file. -/
structure Unit where
  Name : String
  Content : String
  deriving DecidableEq, Repr

/-- The type `Request` of the controller.  `SliceIDs` is `none` for the Go
`nil` and `some []` for an empty list that is not `nil`. -/
structure Request where
  Group : String
  Units : List Unit
  DesiredSlices : Int
  SliceIDs : Option (List String)
  deriving DecidableEq, Repr

/-- The six rules on a single request, named by their error kinds. -/
inductive ValidationRule where
  | NoUnitsInGroup
  | AtInGroupName
  | BadUnitPrefix
  | MultipleAtInUnitName
  | UnitsSameName
  | MixedSliceInstance
  deriving DecidableEq, Repr

/-- The error kind a rule is reported with. -/
def ValidationRule.cause : ValidationRule → ErrorCause
  | .NoUnitsInGroup => ErrorCause.noUnitsInGroupError
  | .AtInGroupName => ErrorCause.atInGroupNameError
  | .BadUnitPrefix => ErrorCause.badUnitPrefixError
  | .MultipleAtInUnitName => ErrorCause.multipleAtInUnitNameError
  | .UnitsSameName => ErrorCause.unitsSameNameError
  | .MixedSliceInstance => ErrorCause.mixedSliceInstanceError

/-- The order in which the spec lists the six rules. -/
def documentedOrder : List ValidationRule :=
  [ .NoUnitsInGroup, .AtInGroupName, .BadUnitPrefix, .MultipleAtInUnitName,
    .UnitsSameName, .MixedSliceInstance ]

/-- A name contains the character `@`. -/
def containsAt (name : String) : Bool := name.data.contains '@'

/-- Modelled from the spec: `validator.go` is not part of the sources at hand.
Rule BadUnitPrefix: "stripping the trailing extension and optional `@<slice>`"
must "yield a name of the form `<group>` or `<group>-<suffix>` with nonempty
suffix". -/
def wellPrefixed (group name : String) : Bool :=
  let stem := (splitChars '@' (dropExtension name.data)).headD []
  decide (stem = group.data) ||
    ((group.data ++ ['-']).isPrefixOf stem && decide (group.data.length + 1 < stem.length))

/-- Modelled from the spec: `validator.go` is not part of the sources at hand.
Whether a request violates a rule, in the words of the spec: NoUnitsInGroup,
"`r.Units` is empty"; AtInGroupName, "`r.Group` contains `@`"; BadUnitPrefix,
some unit is not well prefixed; MultipleAtInUnitName, "some unit name contains
more than one `@`"; UnitsSameName, "two units share a Name";
MixedSliceInstance, "some units contain `@` and some do not". -/
def violates (r : Request) : ValidationRule → Bool
  | .NoUnitsInGroup => decide (r.Units = [])
  | .AtInGroupName => containsAt r.Group
  | .BadUnitPrefix => r.Units.any (fun unit => !wellPrefixed r.Group unit.Name)
  | .MultipleAtInUnitName => r.Units.any (fun unit => decide (1 < unit.Name.data.count '@'))
  | .UnitsSameName => decide (¬ (r.Units.map (fun unit => unit.Name)).Nodup)
  | .MixedSliceInstance =>
    r.Units.any (fun unit => containsAt unit.Name) &&
      r.Units.any (fun unit => !containsAt unit.Name)

/-- Modelled from the spec: `validator.go` is not part of the sources at hand.
The rules are "evaluated in the listed order; first failure wins with the
cited kind"; "on success returns `(true, nil)`". -/
def ValidateRequest (r : Request) : Bool × Option Error :=
  if violates r .NoUnitsInGroup then
    (false, some (maskAny { cause := ErrorCause.noUnitsInGroupError, message := "" }))
  else if violates r .AtInGroupName then
    (false, some (maskAny { cause := ErrorCause.atInGroupNameError, message := "" }))
  else if violates r .BadUnitPrefix then
    (false, some (maskAny { cause := ErrorCause.badUnitPrefixError, message := "" }))
  else if violates r .MultipleAtInUnitName then
    (false, some (maskAny { cause := ErrorCause.multipleAtInUnitNameError, message := "" }))
  else if violates r .UnitsSameName then
    (false, some (maskAny { cause := ErrorCause.unitsSameNameError, message := "" }))
  else if violates r .MixedSliceInstance then
    (false, some (maskAny { cause := ErrorCause.mixedSliceInstanceError, message := "" }))
  else (true, none)

/-- One group name is a proper beginning of another: the names differ and the
second starts with the first. -/
def properBeginning (a b : String) : Bool :=
  decide (a ≠ b) && a.data.isPrefixOf b.data

/-- Modelled from the spec: `validator.go` is not part of the sources at hand.
Rule GroupsSameName: "two requests share `r.Group`".  Rule GroupsArePrefix:
"one group name is a proper prefix of another"; the test of the rule is taken
character by character, as the spec reports of the source ("flags `bat`/`batman`
but accepts `batwoman`/`batman`, implying a character-level test") and as the
tests of the repository require; a test at a hyphen boundary only would accept
`bat`/`batman`, which the tests reject.  The requests themselves are not
validated: the tests pass requests without units. -/
def ValidateMultipleRequest (requests : List Request) : Bool × Option Error :=
  if ¬ (requests.map (fun r => r.Group)).Nodup then
    (false, some (maskAny { cause := ErrorCause.groupsSameNameError, message := "" }))
  else if requests.any (fun a => requests.any (fun b => properBeginning a.Group b.Group)) then
    (false, some (maskAny { cause := ErrorCause.groupsArePrefixError, message := "" }))
  else (true, none)

/-- A request of the tests of the validator: a group and the names of its
units. -/
def requestOf (group : String) (names : List String) : Request :=
  { Group := group, Units := names.map (fun name => { Name := name, Content := "" }),
    DesiredSlices := 0, SliceIDs := none }

/-! ## The submit request (`cli/submit.go`), read from the spec and its tests -/

/-- The unit file store: the path and the content of every file. -/
abbrev FileSystem := List (String × String)

/-- Modelled from the spec: `cli/submit.go` is not part of the sources at hand.
"Discover the unit files belonging to the group": the "`<group>/<file>`
entries" of the store, each a unit named by its file. -/
def readUnitFiles (fs : FileSystem) (group : String) : List Unit :=
  fs.filterMap (fun file =>
    if (group.data ++ ['/']).isPrefixOf file.1.data then
      some { Name := String.mk (file.1.data.drop (group.data.length + 1)), Content := file.2 }
    else none)

/-- Modelled from the spec: "if any discovered unit name contains `@.`, the
group is scalable". -/
def isScalable (units : List Unit) : Bool :=
  units.any (fun unit => decide ("@.".data <:+: unit.Name.data))

/-- Modelled from the spec: `cli/submit.go` is not part of the sources at hand.
"Unscalable group: `DesiredSlices = 1`; `SliceIDs = nil`.  Requesting a scale
other than 1 fails with an invalid-argument error.  Scalable group:
`DesiredSlices = scale`; `SliceIDs = []` (empty, not nil)." -/
def createSubmitRequest (fs : FileSystem) (group : String) (scale : Int) :
    Except Error Request :=
  let units := readUnitFiles fs group
  if isScalable units then
    .ok { Group := group, Units := units, DesiredSlices := scale, SliceIDs := some [] }
  else if scale ≠ 1 then
    .error (maskAny invalidArgumentError)
  else
    .ok { Group := group, Units := units, DesiredSlices := 1, SliceIDs := none }

/-- The helper `givenFileSystemWithSingleUnitGroup` of the tests. -/
def givenFileSystemWithSingleUnitGroup (name : String) : FileSystem :=
  [(name ++ "/" ++ name ++ "-1.service", "some content")]

/-- The helper `givenFileSystemWithSliceableUnitGroup` of the tests. -/
def givenFileSystemWithSliceableUnitGroup (name : String) : FileSystem :=
  [(name ++ "/" ++ name ++ "-1@.service", "some content")]

/-! ## Notions the statements use -/

/-- A row matches a tuple on all four patterns. -/
def rowMatches (row : StatusContext) (fc fd sa ss : String) : Bool :=
  matchState row.FleetCurrent fc && matchState row.FleetDesired fd &&
    matchState row.SystemdActive sa && matchState row.SystemdSub ss

/-- The rows of `StatusIndex` matching a tuple, in table order. -/
def matchingRows (fc fd sa ss : String) : List StatusContext :=
  StatusIndex.filter (fun row => rowMatches row fc fd sa ss)

/-- A value fills a position of a row: any value where the pattern is the
star, one of the literal tokens of the pattern otherwise. -/
def fillsPosition (pattern value : String) : Bool :=
  decide (pattern = "*") || (stringsSplit pattern '|').contains value

/-- A tuple is built from the literal tokens of a row, a starred position
taking any value. -/
def builtFromRow (row : StatusContext) (fc fd sa ss : String) : Bool :=
  fillsPosition row.FleetCurrent fc && fillsPosition row.FleetDesired fd &&
    fillsPosition row.SystemdActive sa && fillsPosition row.SystemdSub ss

/-- The aggregation `UnitHasStatus` asks for a machine row of `us`. -/
def aggregateMachine (us : UnitStatus) (ms : MachineStatus) : Aggregation :=
  AggregateStatus us.Current us.Desired ms.SystemdActive ms.SystemdSub

/-- A unit on two machines: the first row matches no rule, the second
aggregates to stopped. -/
def unitWithUnknownFirstMachine : UnitStatus :=
  { Current := "loaded", Desired := "loaded", Name := "app@1.service", SliceID := "1",
    Machine :=
      [ { ID := "machine1", IP := [10, 0, 0, 101], SystemdActive := "unknown",
          SystemdSub := "", UnitHash := "1234" },
        { ID := "machine2", IP := [10, 0, 0, 102], SystemdActive := "inactive",
          SystemdSub := "dead", UnitHash := "1234" } ] }

/-- A unit on two machines: the first row aggregates to failed, the second
to stopped. -/
def unitStoppedOnSecondMachine : UnitStatus :=
  { Current := "launched", Desired := "launched", Name := "app@1.service", SliceID := "1",
    Machine :=
      [ { ID := "machine1", IP := [10, 0, 0, 101], SystemdActive := "failed",
          SystemdSub := "failed", UnitHash := "1234" },
        { ID := "machine2", IP := [10, 0, 0, 102], SystemdActive := "inactive",
          SystemdSub := "dead", UnitHash := "1234" } ] }

/-- The slice ID `common.SliceID` gives for the name of a unit, when the name
parses. -/
def sliceIDOf (c : Common) (us : UnitStatus) : Option String :=
  match c.SliceID us.Name with
  | .ok ID => some ID
  | .error _ => none

/-- The cohort of a slice ID within a list, as `groupUnitStatus` forms it: the
units whose name with the extension stripped ends with the slice ID. -/
def cohortOf (c : Common) (usl : List UnitStatus) (ID : String) : List UnitStatus :=
  usl.filter (fun us => stringsHasSuffix (c.ExtExpStrip us.Name) ID)

/-- The units of a list agree on Current and Desired, and their machines, taken
from any two units, on SystemdActive. -/
def statesAgree (usl : List UnitStatus) : Prop :=
  ∀ us1 ∈ usl, ∀ us2 ∈ usl, us1.Current = us2.Current ∧ us1.Desired = us2.Desired ∧
    ∀ m1 ∈ us1.Machine, ∀ m2 ∈ us2.Machine, m1.SystemdActive = m2.SystemdActive

instance (usl : List UnitStatus) : Decidable (statesAgree usl) := by
  unfold statesAgree
  infer_instance

/-- The entry of `groupUnitHashInfos` for a machine of a unit whose name
parses to `ID`. -/
def hashInfoOf (c : Common) (us : UnitStatus) (ID : String) (m : MachineStatus) :
    unitHashInfo :=
  { Base := c.UnitBase us.Name, SliceID := ID, Hash := m.UnitHash }

/-- A unit still waits for its cohort to be written: its slice ID is not
among the handled ones and is the slice ID of a unit of the rest of the list. -/
def awaitsCohort (c : Common) (rest : List UnitStatus) (matchers : List String)
    (other : UnitStatus) : Bool :=
  match sliceIDOf c other with
  | some ID => !matchers.contains ID && rest.any (fun us => decide (sliceIDOf c us = some ID))
  | none => false

/-- The helper `givenSingleUnitStatus` of the tests. -/
def givenSingleUnitStatus (name sliceID : String) : UnitStatus :=
  { Name := "unit-" ++ name ++ "@" ++ sliceID,
    SliceID := "",
    Current := "loaded",
    Desired := "loaded",
    Machine :=
      [ { ID := "machine1", IP := [10, 0, 0, 101], SystemdActive := "dead",
          SystemdSub := "", UnitHash := "1234" } ] }

/-- The helper `givenGroupedStatus` of the tests. -/
def givenGroupedStatus (sliceID : String) : UnitStatus :=
  { givenSingleUnitStatus "*" sliceID with Name := "*" }

/-- The input of the test `TestUnitStatusList_Group_NoDiff`: slice IDs 1, 1,
2, 2. -/
def noDiffInput : List UnitStatus :=
  [ givenSingleUnitStatus "main" "1", givenSingleUnitStatus "sidekick" "1",
    givenSingleUnitStatus "main" "2", givenSingleUnitStatus "sidekick" "2" ]

/-- The third unit of the test `TestUnitStatusList_Group_UnitHashDiffs`: its
hash is changed. -/
def changedHashUnit : UnitStatus :=
  { givenSingleUnitStatus "main" "2" with
    Machine :=
      [ { ID := "machine1", IP := [10, 0, 0, 101], SystemdActive := "dead",
          SystemdSub := "", UnitHash := "something-else" } ] }

/-- The input of the test `TestUnitStatusList_Group_UnitHashDiffs`. -/
def unitHashDiffsInput : List UnitStatus :=
  [ givenSingleUnitStatus "main" "1", givenSingleUnitStatus "sidekick" "1",
    changedHashUnit, givenSingleUnitStatus "sidekick" "2" ]

/-- A list with a unit whose name has two `@`. -/
def unparsableInput : List UnitStatus :=
  [ { givenSingleUnitStatus "main" "1" with Name := "unit-main@1@2.service" } ]

/-- Two units of one base in the slices `1` and `11`, with different hashes:
the name of the second ends with the slice ID of the first. -/
def overlappingSlicesInput : List UnitStatus :=
  [ { givenSingleUnitStatus "main" "1" with Name := "unit-main@1.service" },
    { changedHashUnit with Name := "unit-main@11.service" } ]

/-- A list with a unit that has no machines and whose name has two `@`. -/
def unparsableWithoutMachines : List UnitStatus :=
  [ { givenSingleUnitStatus "main" "1" with Name := "unit-main@1@2.service", Machine := [] } ]

/-- The distinct elements of a list of slice IDs, in order of first
occurrence. -/
def firstOccurrences : List String → List String
  | [] => []
  | ID :: rest => ID :: (firstOccurrences rest).filter (fun other => decide (other ≠ ID))

/-- The spec's HashesEqualAcrossSameBase: any two statuses of the same unit
base have equal UnitHash on their machines. -/
def hashesEqualAcrossSameBase (c : Common) (usl : List UnitStatus) : Prop :=
  ∀ us1 ∈ usl, ∀ us2 ∈ usl, c.UnitBase us1.Name = c.UnitBase us2.Name →
    ∀ m1 ∈ us1.Machine, ∀ m2 ∈ us2.Machine, m1.UnitHash = m2.UnitHash

instance (c : Common) (usl : List UnitStatus) : Decidable (hashesEqualAcrossSameBase c usl) := by
  unfold hashesEqualAcrossSameBase
  infer_instance

/-- The rows the spec emits for one cohort: one copy of the first member with
Name rewritten to `"*"` when the cohort collapses, every member otherwise. -/
def rowsOfCohort (collapse : Bool) (cohort : List UnitStatus) : List UnitStatus :=
  if collapse then (cohort.head?.map (fun first => { first with Name := "*" })).toList
  else cohort

/-- The slice cohort of a slice ID: the units of the list whose slice ID it
is, in input order. -/
def sliceCohort (c : Common) (usl : List UnitStatus) (ID : String) : List UnitStatus :=
  usl.filter (fun us => decide (sliceIDOf c us = some ID))

/-- The output of the grouping as the spec words it: over the slice IDs of
the list in order of first occurrence, each once, the rows of the slice cohort
of that ID, collapsed when the hashes are equal across same-base units and the
states of the cohort are equal. -/
def groupedAsSpecified (c : Common) (usl : List UnitStatus) : List UnitStatus :=
  (firstOccurrences (usl.filterMap (sliceIDOf c))).flatMap (fun ID =>
    rowsOfCohort
      (decide (hashesEqualAcrossSameBase c usl) &&
        decide (statesAgree (sliceCohort c usl ID)))
      (sliceCohort c usl ID))

/-- The input of the second case of the test `Test_UnitStatusList_Group`:
slice 1 with two different states, slice 2 with equal states. -/
def differingStatesInput : List UnitStatus :=
  [ { Current := "current-state-1", Desired := "desired-state-1", Name := "name-1@1.service",
      SliceID := "",
      Machine := [ { ID := "machine-ID-1", IP := [10, 0, 0, 1],
                     SystemdActive := "systemd-active-state-1", SystemdSub := "",
                     UnitHash := "1234" } ] },
    { Current := "current-state-2", Desired := "desired-state-2", Name := "name-2@1.service",
      SliceID := "",
      Machine := [ { ID := "machine-ID-1", IP := [10, 0, 0, 1],
                     SystemdActive := "systemd-active-state-2", SystemdSub := "",
                     UnitHash := "1234" } ] },
    { Current := "current-state-2", Desired := "desired-state-2", Name := "name-3@2.service",
      SliceID := "",
      Machine := [ { ID := "machine-ID-2", IP := [10, 0, 0, 2],
                     SystemdActive := "systemd-active-state-2", SystemdSub := "",
                     UnitHash := "1234" } ] },
    { Current := "current-state-2", Desired := "desired-state-2", Name := "name-4@2.service",
      SliceID := "",
      Machine := [ { ID := "machine-ID-2", IP := [10, 0, 0, 2],
                     SystemdActive := "systemd-active-state-2", SystemdSub := "",
                     UnitHash := "1234" } ] } ]

/-- What `allStatesEqual` looks at in a unit status: Current, Desired and the
SystemdActive of its machines, in order. -/
def stateView (us : UnitStatus) : String × String × List String :=
  (us.Current, us.Desired, us.Machine.map (fun m => m.SystemdActive))

/-- A unit without machines and a unit of another base with another hash. -/
def mixedBasesInput : List UnitStatus :=
  [ givenSingleUnitStatus "main" "1",
    { givenSingleUnitStatus "main" "2" with Machine := [] },
    { changedHashUnit with Name := "unit-sidekick@2" } ]

/-- A machine row decides the scan of `UnitHasStatus`: its tuple fails to
aggregate, or aggregates into the queried set. -/
def decidesScan (us : UnitStatus) (statuses : List Status) (ms : MachineStatus) : Bool :=
  (aggregateMachine us ms).err.isSome || statuses.contains (aggregateMachine us ms).status

/-- A unit on two machines: the first row aggregates to stopped, the second
matches no rule. -/
def unitWithUnknownLastMachine : UnitStatus :=
  { unitWithUnknownFirstMachine with Machine := unitWithUnknownFirstMachine.Machine.reverse }

/-- Helpers for which the slice ID of a name is not a suffix of the name: the
slice ID is always `x`. -/
def constantSliceCommon : Common where
  SliceID := fun _ => .ok "x"
  UnitBase := fun name => name
  ExtExpStrip := fun name => name

/-! ## Theorems -/

theorem collectStatuses_eq_filter (fc fd sa ss : String) (table : List StatusContext) :
    collectStatuses fc fd sa ss table
      = (table.filter (fun row => rowMatches row fc fd sa ss)).map (fun row => row.Aggregated) := by
  induction table with
  | nil => rfl
  | cons row rest ih =>
    simp only [collectStatuses, rowMatches, List.filter_cons, ih]
    cases matchState row.FleetCurrent fc <;> cases matchState row.FleetDesired fd <;>
      cases matchState row.SystemdActive sa <;> cases matchState row.SystemdSub ss <;> simp

theorem filter_eq_cons_of_exists {α : Type} (p : α → Bool) (l : List α)
    (h : ∃ a ∈ l, p a = true) :
    ∃ first rest, l.find? p = some first ∧ l.filter p = first :: rest := by
  induction l with
  | nil => simp at h
  | cons a l ih =>
    by_cases ha : p a = true
    · exact ⟨a, l.filter p, by simp [List.find?, ha], by simp [List.filter_cons, ha]⟩
    · have h2 : ∃ b ∈ l, p b = true := by
        obtain ⟨b, hb, hpb⟩ := h
        rcases List.mem_cons.1 hb with rfl | hb
        · exact absurd hpb ha
        · exact ⟨b, hb, hpb⟩
      obtain ⟨first, rest, h3, h4⟩ := ih h2
      exact ⟨first, rest, by simp [List.find?, ha, h3], by simp [List.filter_cons, ha, h4]⟩

theorem aggregateStatus_of_matching (fc fd sa ss : String) :
    AggregateStatus fc fd sa ss =
      match matchingRows fc fd sa ss with
      | [] =>
        { status := "",
          err := some (maskAnyf ErrorCause.invalidUnitStatusError (tupleText fc fd sa ss)),
          warnings := [] }
      | first :: rest =>
        { status := first.Aggregated,
          err := none,
          warnings :=
            if rest = [] then []
            else ["Multiple statuses found for: " ++ tupleText fc fd sa ss] } := by
  unfold AggregateStatus matchingRows
  rw [collectStatuses_eq_filter]
  cases h : StatusIndex.filter (fun row => rowMatches row fc fd sa ss) with
  | nil => simp
  | cons first rest =>
    cases rest with
    | nil => simp
    | cons second rest => simp

/-- C1: whenever at least one row of `StatusIndex` matches the tuple on all
four patterns, `AggregateStatus` returns without error the status of the first
matching row in table order, however many rows match. -/
theorem aggregateStatus_returns_first_match (fc fd sa ss : String)
    (h : ∃ row ∈ StatusIndex, rowMatches row fc fd sa ss = true) :
    ∃ first, StatusIndex.find? (fun row => rowMatches row fc fd sa ss) = some first ∧
      (AggregateStatus fc fd sa ss).status = first.Aggregated ∧
      (AggregateStatus fc fd sa ss).err = none := by
  obtain ⟨first, rest, h1, h2⟩ := filter_eq_cons_of_exists _ _ h
  refine ⟨first, h1, ?_, ?_⟩ <;>
    · rw [aggregateStatus_of_matching]
      simp only [matchingRows, h2]

/-- C1, at the tuple two rows match: rows 1 and 2 both match
`(inactive, launched, active, running)` and the status is that of row 1. -/
theorem aggregateStatus_returns_first_match_witness :
    (matchingRows "inactive" "launched" "active" "running").length = 2 ∧
    ∃ first, StatusIndex.find?
        (fun row => rowMatches row "inactive" "launched" "active" "running") = some first ∧
      (AggregateStatus "inactive" "launched" "active" "running").status = first.Aggregated ∧
      (AggregateStatus "inactive" "launched" "active" "running").err = none :=
  ⟨by decide,
   aggregateStatus_returns_first_match "inactive" "launched" "active" "running"
    ⟨StatusIndex.head (by decide), by decide, by decide⟩⟩

/-- C2: `AggregateStatus` fails exactly when no row of `StatusIndex` matches
the tuple; the failure is of kind InvalidUnitStatus, carries the tuple in its
text and comes with the empty status. -/
theorem aggregateStatus_fails_iff_no_match (fc fd sa ss : String) :
    ((AggregateStatus fc fd sa ss).err ≠ none ↔
        ∀ row ∈ StatusIndex, rowMatches row fc fd sa ss = false) ∧
    ((AggregateStatus fc fd sa ss).err = none ∨
      ((AggregateStatus fc fd sa ss).status = "" ∧
        ∃ err, (AggregateStatus fc fd sa ss).err = some err ∧
          IsInvalidUnitStatus err = true ∧ err.message = tupleText fc fd sa ss)) := by
  rw [aggregateStatus_of_matching]
  cases h : matchingRows fc fd sa ss with
  | nil =>
    have h0 : ∀ row ∈ StatusIndex, rowMatches row fc fd sa ss = false := by
      intro row hrow
      have := List.filter_eq_nil_iff.1 h row hrow
      simpa using this
    refine ⟨by simpa using h0, Or.inr ⟨rfl, _, rfl, by simp [IsInvalidUnitStatus, maskAnyf], rfl⟩⟩
  | cons first rest =>
    have hmem : first ∈ matchingRows fc fd sa ss := by rw [h]; exact List.mem_cons_self _ _
    have hf := List.mem_filter.1 hmem
    refine ⟨?_, Or.inl rfl⟩
    simp only [ne_eq, not_true_eq_false, false_iff, not_forall]
    exact ⟨first, hf.1, by simp [hf.2]⟩

/-! ### The patterns of the table, split into their tokens -/

@[simp]
theorem split_inactive :
    stringsSplit "inactive" '|' = ["inactive"] := by decide

@[simp]
theorem split_launched :
    stringsSplit "launched" '|' = ["launched"] := by decide

@[simp]
theorem split_active :
    stringsSplit "active" '|' = ["active"] := by decide

@[simp]
theorem split_running :
    stringsSplit "running" '|' = ["running"] := by decide

@[simp]
theorem split_loaded_launched :
    stringsSplit "loaded|launched" '|' = ["loaded", "launched"] := by decide

@[simp]
theorem split_failed :
    stringsSplit "failed" '|' = ["failed"] := by decide

@[simp]
theorem split_activating :
    stringsSplit "activating" '|' = ["activating"] := by decide

@[simp]
theorem split_deactivating :
    stringsSplit "deactivating" '|' = ["deactivating"] := by decide

@[simp]
theorem split_active_reloading :
    stringsSplit "active|reloading" '|' = ["active", "reloading"] := by decide

@[simp]
theorem split_stop :
    stringsSplit "stop-sigterm|stop-post|stop" '|' = ["stop-sigterm", "stop-post", "stop"] := by decide

@[simp]
theorem split_start :
    stringsSplit "auto-restart|launched|start-pre|start-pre|start-post|start|dead" '|' = ["auto-restart", "launched", "start-pre", "start-pre", "start-post", "start", "dead"] := by decide

@[simp]
theorem split_exited_running :
    stringsSplit "exited|running" '|' = ["exited", "running"] := by decide

theorem matchState_star (remote : String) : matchState "*" remote = true := by
  simp [matchState]

/-- C4: with the fleet current state `inactive` the aggregation succeeds for
every `fd`, `sa`, `ss`; the status is running at `(launched, active, running)`,
where rows 1 and 2 both match and row 1 wins, and stopped everywhere else,
where row 2 alone matches. -/
theorem aggregateStatus_inactive (fd sa ss : String) :
    (AggregateStatus "inactive" fd sa ss).err = none ∧
    (AggregateStatus "inactive" fd sa ss).status =
      (if fd = "launched" ∧ sa = "active" ∧ ss = "running" then StatusRunning
       else StatusStopped) ∧
    matchingRows "inactive" fd sa ss =
      (if fd = "launched" ∧ sa = "active" ∧ ss = "running" then StatusIndex.take 2
       else (StatusIndex.drop 1).take 1) := by
  rw [aggregateStatus_of_matching]
  by_cases h : fd = "launched" ∧ sa = "active" ∧ ss = "running"
  · obtain ⟨rfl, rfl, rfl⟩ := h
    simp [matchingRows, StatusIndex, List.filter_cons, rowMatches, matchState]
  · have h2 : ¬ (("launched" = fd ∧ "active" = sa) ∧ "running" = ss) := by
      rintro ⟨⟨rfl, rfl⟩, rfl⟩
      exact h ⟨rfl, rfl, rfl⟩
    simp [matchingRows, StatusIndex, List.filter_cons, rowMatches, matchState, h, h2]

/-- C5: a fleet current state that is none of `inactive`, `loaded`, `launched`
matches no row, whatever `fd`, `sa`, `ss` are: `AggregateStatus` fails with
InvalidUnitStatus and the empty status. -/
theorem aggregateStatus_unknown_fleet_state (fc fd sa ss : String)
    (h1 : fc ≠ "inactive") (h2 : fc ≠ "loaded") (h3 : fc ≠ "launched") :
    matchingRows fc fd sa ss = [] ∧
    (AggregateStatus fc fd sa ss).status = "" ∧
    ∃ err, (AggregateStatus fc fd sa ss).err = some err ∧ IsInvalidUnitStatus err = true := by
  have h : matchingRows fc fd sa ss = [] := by
    simp [matchingRows, StatusIndex, List.filter_cons, rowMatches, matchState,
      Ne.symm h1, Ne.symm h2, Ne.symm h3]
  refine ⟨h, ?_, ?_⟩
  · rw [aggregateStatus_of_matching, h]
  · rw [aggregateStatus_of_matching, h]
    exact ⟨_, rfl, by simp [IsInvalidUnitStatus, maskAnyf]⟩

/-- C5, at the tuple of the test: `fc = "foo"`, `sa = "bar"`, `ss = "baz"`. -/
theorem aggregateStatus_unknown_fleet_state_witness :
    matchingRows "foo" "" "bar" "baz" = [] ∧
    (AggregateStatus "foo" "" "bar" "baz").status = "" ∧
    ∃ err, (AggregateStatus "foo" "" "bar" "baz").err = some err ∧
      IsInvalidUnitStatus err = true :=
  aggregateStatus_unknown_fleet_state "foo" "" "bar" "baz" (by decide) (by decide) (by decide)

/-- C3 as stated fails: the tuple `(inactive, launched, active, running)` is
built from the tokens of row 1 and, filling the stars, from those of row 2;
two rows match it, a warning is written, and the status is not that of row 2. -/
theorem aggregateStatus_explicit_rows_counterexample :
    ¬ (∀ row ∈ StatusIndex, ∀ fc fd sa ss : String, builtFromRow row fc fd sa ss = true →
        (AggregateStatus fc fd sa ss).status = row.Aggregated ∧
        (AggregateStatus fc fd sa ss).warnings = [] ∧
        (matchingRows fc fd sa ss).length = 1) := by
  intro h
  have h1 := h (StatusIndex.head (by decide)) (by decide)
    "inactive" "launched" "active" "running" (by decide)
  exact absurd h1.2.2 (by decide)

/-- C3, amended: for every row of the table and every tuple built from the
literal tokens of the row (any value at a starred position), the aggregation
succeeds; away from `(inactive, launched, active, running)` the row is the only
one that matches and its status is returned without a warning; at that tuple
rows 1 and 2 match, one warning is written and the status is running. -/
theorem aggregateStatus_explicit_rows (row : StatusContext) (hrow : row ∈ StatusIndex)
    (fc fd sa ss : String) (h : builtFromRow row fc fd sa ss = true) :
    (AggregateStatus fc fd sa ss).err = none ∧
    (if fc = "inactive" ∧ fd = "launched" ∧ sa = "active" ∧ ss = "running" then
      matchingRows fc fd sa ss = StatusIndex.take 2 ∧
      (AggregateStatus fc fd sa ss).status = StatusRunning ∧
      (AggregateStatus fc fd sa ss).warnings.length = 1
    else
      matchingRows fc fd sa ss = [row] ∧
      (AggregateStatus fc fd sa ss).status = row.Aggregated ∧
      (AggregateStatus fc fd sa ss).warnings = []) := by
  rw [aggregateStatus_of_matching]
  simp only [StatusIndex, List.mem_cons, List.mem_singleton, List.not_mem_nil, or_false] at hrow
  rcases hrow with rfl | rfl | rfl | rfl | rfl | rfl | rfl | rfl | rfl
  · simp [builtFromRow, fillsPosition] at h
    obtain ⟨⟨⟨rfl, rfl⟩, rfl⟩, rfl⟩ := h
    simp [matchingRows, StatusIndex, List.filter_cons, rowMatches, matchState]
  · simp [builtFromRow, fillsPosition] at h
    subst h
    by_cases h : fd = "launched" ∧ sa = "active" ∧ ss = "running"
    · obtain ⟨rfl, rfl, rfl⟩ := h
      simp [matchingRows, StatusIndex, List.filter_cons, rowMatches, matchState]
    · have h2 : ¬ (("launched" = fd ∧ "active" = sa) ∧ "running" = ss) := by
        rintro ⟨⟨rfl, rfl⟩, rfl⟩
        exact h ⟨rfl, rfl, rfl⟩
      simp [matchingRows, StatusIndex, List.filter_cons, rowMatches, matchState, h, h2]
  all_goals
    simp [builtFromRow, fillsPosition] at h
    casesm* _ ∧ _, _ ∨ _ <;> subst_vars <;>
      simp [matchingRows, StatusIndex, List.filter_cons, rowMatches, matchState]

/-- C3 amended, at a tuple of row 7 and a free desired state. -/
theorem aggregateStatus_explicit_rows_witness :
    (AggregateStatus "launched" "anything" "reloading" "stop-post").err = none ∧
    (if "launched" = "inactive" ∧ "anything" = "launched" ∧ "reloading" = "active" ∧
        "stop-post" = "running" then
      matchingRows "launched" "anything" "reloading" "stop-post" = StatusIndex.take 2 ∧
      (AggregateStatus "launched" "anything" "reloading" "stop-post").status = StatusRunning ∧
      (AggregateStatus "launched" "anything" "reloading" "stop-post").warnings.length = 1
    else
      matchingRows "launched" "anything" "reloading" "stop-post" = [StatusIndex.get ⟨6, by decide⟩] ∧
      (AggregateStatus "launched" "anything" "reloading" "stop-post").status
        = (StatusIndex.get ⟨6, by decide⟩).Aggregated ∧
      (AggregateStatus "launched" "anything" "reloading" "stop-post").warnings = []) :=
  aggregateStatus_explicit_rows (StatusIndex.get ⟨6, by decide⟩) (by decide)
    "launched" "anything" "reloading" "stop-post" (by decide)

theorem specRow_accepts_eq_rowMatches (fc fd sa ss : String) :
    specRuleTable.map (fun row => row.accepts fc fd sa ss)
      = StatusIndex.map (fun row => rowMatches row fc fd sa ss) := by
  simp [specRuleTable, StatusIndex, SpecRow.accepts, SpecPattern.accepts, rowMatches,
    matchState, eq_comm]

theorem filter_map_eq_of_related (p1 : StatusContext → Bool) (p2 : SpecRow → Bool) :
    ∀ (t1 : List StatusContext) (t2 : List SpecRow),
      t1.map p1 = t2.map p2 →
      t1.map (fun row => row.Aggregated) = t2.map (fun row => row.status) →
      (t1.filter p1).map (fun row => row.Aggregated)
        = (t2.filter p2).map (fun row => row.status) := by
  intro t1
  induction t1 with
  | nil =>
    intro t2 h1 _
    cases t2 with
    | nil => rfl
    | cons b t2 => simp at h1
  | cons a t1 ih =>
    intro t2 h1 h2
    cases t2 with
    | nil => simp at h1
    | cons b t2 =>
      simp only [List.map_cons, List.cons.injEq] at h1 h2
      have h3 := ih t2 h1.2 h2.2
      by_cases ha : p1 a = true
      · have hb : p2 b = true := by rw [← h1.1]; exact ha
        simp [List.filter_cons, ha, hb, h2.1, h3]
      · have hb : ¬ p2 b = true := by rw [← h1.1]; exact ha
        simp [List.filter_cons, ha, hb, h3]

/-- The outcome a list of collected statuses leads to. -/
theorem outcome_of_statuses (fc fd sa ss : String) :
    (AggregateStatus fc fd sa ss).outcome =
      (match (matchingRows fc fd sa ss).map (fun row => row.Aggregated) with
       | [] => { status := "", failure := some ErrorCause.invalidUnitStatusError, warned := false }
       | [status] => { status := status, failure := none, warned := false }
       | first :: _ :: _ => { status := first, failure := none, warned := true }) := by
  rw [aggregateStatus_of_matching]
  cases matchingRows fc fd sa ss with
  | nil => simp [Aggregation.outcome, maskAnyf]
  | cons first rest =>
    cases rest with
    | nil => simp [Aggregation.outcome]
    | cons second rest => simp [Aggregation.outcome]

theorem specOutcome_of_statuses (fc fd sa ss : String) :
    specAggregateStatus fc fd sa ss =
      (match (specRuleTable.filter (fun row => row.accepts fc fd sa ss)).map
          (fun row => row.status) with
       | [] => { status := "", failure := some ErrorCause.invalidUnitStatusError, warned := false }
       | [status] => { status := status, failure := none, warned := false }
       | first :: _ :: _ => { status := first, failure := none, warned := true }) := by
  unfold specAggregateStatus
  cases specRuleTable.filter (fun row => row.accepts fc fd sa ss) with
  | nil => simp
  | cons first rest =>
    cases rest with
    | nil => simp
    | cons second rest => simp

/-- C6: `StatusIndex` is the canonical table of the spec: nine rows each, the
same statuses in the same order, row by row the same verdict on every tuple,
and so the same outcome of the aggregation (status, kind of failure, warning)
over either table. -/
theorem statusIndex_refines_spec_table :
    StatusIndex.length = 9 ∧ specRuleTable.length = 9 ∧
    StatusIndex.map (fun row => row.Aggregated) = specRuleTable.map (fun row => row.status) ∧
    (∀ fc fd sa ss : String,
      StatusIndex.map (fun row => rowMatches row fc fd sa ss)
        = specRuleTable.map (fun row => row.accepts fc fd sa ss)) ∧
    (∀ fc fd sa ss : String,
      (AggregateStatus fc fd sa ss).outcome = specAggregateStatus fc fd sa ss) := by
  refine ⟨by decide, by decide, by decide,
    fun fc fd sa ss => (specRow_accepts_eq_rowMatches fc fd sa ss).symm, ?_⟩
  intro fc fd sa ss
  rw [outcome_of_statuses, specOutcome_of_statuses, matchingRows,
    filter_map_eq_of_related _ _ StatusIndex specRuleTable
      (specRow_accepts_eq_rowMatches fc fd sa ss).symm (by decide)]

/-- C7: with an empty set of statuses `UnitHasStatus` returns false and an
error of kind InvalidArgument for every unit status, and no aggregation is
made on the way. -/
theorem unitHasStatus_empty_query (us : UnitStatus) :
    (UnitHasStatus us []).result = false ∧
    (∃ err, (UnitHasStatus us []).err = some err ∧ IsInvalidArgument err = true) ∧
    (UnitHasStatus us []).aggregations = [] := by
  refine ⟨rfl, ⟨maskAny invalidArgumentError, rfl, ?_⟩, rfl⟩
  simp [IsInvalidArgument, maskAny, invalidArgumentError]

theorem unitHasStatusLoop_true_iff (us : UnitStatus) (statuses : List Status)
    (machines : List MachineStatus) :
    (unitHasStatusLoop us statuses machines).result = true ↔
      ∃ front ms back, machines = front ++ ms :: back ∧
        (∀ earlier ∈ front, (aggregateMachine us earlier).err = none) ∧
        (aggregateMachine us ms).err = none ∧
        (aggregateMachine us ms).status ∈ statuses := by
  induction machines with
  | nil => simp [unitHasStatusLoop]
  | cons m0 rest ih =>
    unfold unitHasStatusLoop
    simp only
    cases herr : (AggregateStatus us.Current us.Desired m0.SystemdActive m0.SystemdSub).err with
    | some err =>
      simp only [Bool.false_eq_true, false_iff, not_exists, not_and]
      intro front ms back hsplit hfront hms
      cases front with
      | nil =>
        simp only [List.nil_append, List.cons.injEq] at hsplit
        rw [← hsplit.1, aggregateMachine, herr] at hms
        exact absurd hms (by simp)
      | cons f front =>
        simp only [List.cons_append, List.cons.injEq] at hsplit
        have := hfront f (List.mem_cons_self _ _)
        rw [← hsplit.1, aggregateMachine, herr] at this
        exact absurd this (by simp)
    | none =>
      simp only
      by_cases hany : statuses.any (fun status =>
          decide ((AggregateStatus us.Current us.Desired m0.SystemdActive m0.SystemdSub).status
            = status)) = true
      · simp only [hany, if_true, true_iff]
        refine ⟨[], m0, rest, rfl, by simp, herr, ?_⟩
        simpa [aggregateMachine] using hany
      · simp only [hany, Bool.false_eq_true, if_false]
        have hnot : (aggregateMachine us m0).status ∉ statuses := by
          simpa [aggregateMachine] using hany
        rw [ih]
        constructor
        · rintro ⟨front, ms, back, hsplit, hfront, hms, hin⟩
          refine ⟨m0 :: front, ms, back, by simp [hsplit], ?_, hms, hin⟩
          intro earlier hearlier
          rcases List.mem_cons.1 hearlier with rfl | h
          · exact herr
          · exact hfront earlier h
        · rintro ⟨front, ms, back, hsplit, hfront, hms, hin⟩
          cases front with
          | nil =>
            simp only [List.nil_append, List.cons.injEq] at hsplit
            rw [← hsplit.1] at hin
            exact absurd hin hnot
          | cons f front =>
            simp only [List.cons_append, List.cons.injEq] at hsplit
            exact ⟨front, ms, back, hsplit.2,
              fun earlier h => hfront earlier (List.mem_cons_of_mem _ h), hms, hin⟩

/-- C8 as stated fails: the second machine of the unit aggregates to stopped,
which is in the queried set, yet `UnitHasStatus` returns false, because the
first machine matches no rule and the error ends the scan. -/
theorem unitHasStatus_iff_some_machine_counterexample :
    (UnitHasStatus unitWithUnknownFirstMachine [StatusStopped]).result = false ∧
    (∃ err, (UnitHasStatus unitWithUnknownFirstMachine [StatusStopped]).err = some err ∧
      IsInvalidUnitStatus err = true) ∧
    ∃ ms ∈ unitWithUnknownFirstMachine.Machine,
      (aggregateMachine unitWithUnknownFirstMachine ms).err = none ∧
      (aggregateMachine unitWithUnknownFirstMachine ms).status ∈ [StatusStopped] := by
  refine ⟨by decide, ⟨_, rfl, by decide⟩, ?_⟩
  exact ⟨_, List.mem_cons_of_mem _ (List.mem_cons_self _ _), by decide, by decide⟩

/-- C8, amended: for a non-empty set of statuses `UnitHasStatus` returns true
exactly when some machine row of the unit aggregates without error to a status
of the set and every machine row before it aggregates without error. -/
theorem unitHasStatus_true_iff (us : UnitStatus) (statuses : List Status)
    (h : statuses ≠ []) :
    (UnitHasStatus us statuses).result = true ↔
      ∃ front ms back, us.Machine = front ++ ms :: back ∧
        (∀ earlier ∈ front, (aggregateMachine us earlier).err = none) ∧
        (aggregateMachine us ms).err = none ∧
        (aggregateMachine us ms).status ∈ statuses := by
  have hlen : ¬ statuses.length = 0 := by
    intro h0
    exact h (List.length_eq_zero.1 h0)
  unfold UnitHasStatus
  rw [if_neg hlen]
  exact unitHasStatusLoop_true_iff us statuses us.Machine

/-- C8 amended, at a unit whose second machine is the first to fall into the
queried set. -/
theorem unitHasStatus_true_iff_witness :
    [StatusStopped] ≠ [] ∧
    (UnitHasStatus unitStoppedOnSecondMachine [StatusStopped]).result = true :=
  ⟨by decide,
   (unitHasStatus_true_iff unitStoppedOnSecondMachine [StatusStopped] (by decide)).2
    ⟨[unitStoppedOnSecondMachine.Machine.head (by decide)],
     unitStoppedOnSecondMachine.Machine.getLast (by decide), [],
     by decide, by decide, by decide, by decide⟩⟩

/-! ### The status grouper -/

theorem sliceIDOf_eq_some {c : Common} {us : UnitStatus} {ID : String} :
    sliceIDOf c us = some ID ↔ c.SliceID us.Name = .ok ID := by
  unfold sliceIDOf
  cases c.SliceID us.Name <;> simp

theorem allStatesEqual_iff (usl : List UnitStatus) :
    allStatesEqual usl = true ↔ statesAgree usl := by
  simp only [allStatesEqual, statesAgree, List.all_eq_true]
  constructor
  · intro h us1 h1 us2 h2
    have h3 := h us1 h1 us2 h2
    by_cases hc : us1.Current = us2.Current
    · by_cases hd : us1.Desired = us2.Desired
      · refine ⟨hc, hd, ?_⟩
        intro m1 hm1 m2 hm2
        simp only [hc, hd, ne_eq, not_true_eq_false, if_false, List.all_eq_true] at h3
        have h4 := h3 m1 hm1 m2 hm2
        by_contra hne
        simp [hne] at h4
      · simp [hc, hd] at h3
    · simp [hc] at h3
  · intro h us1 h1 us2 h2
    obtain ⟨hc, hd, hm⟩ := h us1 h1 us2 h2
    simp only [hc, hd, ne_eq, not_true_eq_false, if_false, List.all_eq_true]
    intro m1 hm1 m2 hm2
    simp [hm m1 hm1 m2 hm2]

theorem hashInfosOfMachines_ok (c : Common) (us1 : UnitStatus) (ID : String)
    (h : c.SliceID us1.Name = .ok ID) (machines : List MachineStatus) :
    hashInfosOfMachines c us1 machines = .ok (machines.map (hashInfoOf c us1 ID)) := by
  induction machines with
  | nil => rfl
  | cons m rest ih => simp [hashInfosOfMachines, h, ih, hashInfoOf]

theorem hashInfosOfPeers_ok (c : Common) (us1 : UnitStatus) (ID : String)
    (h : c.SliceID us1.Name = .ok ID) (peers : List UnitStatus) :
    ∃ uhis, hashInfosOfPeers c us1 peers = .ok uhis ∧
      ∀ x, x ∈ uhis ↔
        (∃ us2 ∈ peers, c.UnitBase us1.Name = c.UnitBase us2.Name) ∧
          ∃ m ∈ us1.Machine, x = hashInfoOf c us1 ID m := by
  induction peers with
  | nil => exact ⟨[], rfl, by simp⟩
  | cons us2 rest ih =>
    obtain ⟨more, hmore, hmem⟩ := ih
    by_cases hb : c.UnitBase us1.Name = c.UnitBase us2.Name
    · refine ⟨us1.Machine.map (hashInfoOf c us1 ID) ++ more, ?_, ?_⟩
      · simp [hashInfosOfPeers, hb, hashInfosOfMachines_ok c us1 ID h, hmore]
      · intro x
        simp only [List.mem_append, List.mem_map, hmem, List.mem_cons, exists_eq_or_imp]
        constructor
        · rintro (⟨m, hm, rfl⟩ | ⟨_, hx⟩)
          · exact ⟨Or.inl hb, m, hm, rfl⟩
          · exact ⟨Or.inl hb, hx⟩
        · rintro ⟨_, m, hm, rfl⟩
          exact Or.inl ⟨m, hm, rfl⟩
    · refine ⟨more, ?_, ?_⟩
      · simp [hashInfosOfPeers, hb, hmore]
      · intro x
        simp only [hmem, List.mem_cons, exists_eq_or_imp, hb, false_or]

theorem hashInfosOfUnits_ok (c : Common) (usl : List UnitStatus) (rest : List UnitStatus)
    (h : ∀ us ∈ rest, (sliceIDOf c us).isSome = true) :
    ∃ uhis, hashInfosOfUnits c usl rest = .ok uhis ∧
      ∀ x, x ∈ uhis ↔
        ∃ us1 ∈ rest, (∃ us2 ∈ usl, c.UnitBase us1.Name = c.UnitBase us2.Name) ∧
          ∃ ID, sliceIDOf c us1 = some ID ∧ ∃ m ∈ us1.Machine, x = hashInfoOf c us1 ID m := by
  induction rest with
  | nil => exact ⟨[], rfl, by simp⟩
  | cons us1 rest ih =>
    obtain ⟨more, hmore, hmem⟩ := ih (fun us hus => h us (List.mem_cons_of_mem _ hus))
    obtain ⟨ID, hID⟩ := Option.isSome_iff_exists.1 (h us1 (List.mem_cons_self _ _))
    obtain ⟨uhis, huhis, hmem1⟩ := hashInfosOfPeers_ok c us1 ID (sliceIDOf_eq_some.1 hID) usl
    refine ⟨uhis ++ more, ?_, ?_⟩
    · simp [hashInfosOfUnits, huhis, hmore]
    · intro x
      simp only [List.mem_append, hmem, hmem1, List.mem_cons, exists_eq_or_imp, hID,
        Option.some.injEq, exists_eq_left']

theorem groupUnitHashInfos_ok (c : Common) (usl : List UnitStatus)
    (h : ∀ us ∈ usl, (sliceIDOf c us).isSome = true) :
    ∃ uhis, groupUnitHashInfos c usl = .ok uhis ∧
      ∀ x, x ∈ uhis ↔
        ∃ us1 ∈ usl, ∃ ID, sliceIDOf c us1 = some ID ∧
          ∃ m ∈ us1.Machine, x = hashInfoOf c us1 ID m := by
  obtain ⟨uhis, huhis, hmem⟩ := hashInfosOfUnits_ok c usl usl h
  refine ⟨uhis, huhis, ?_⟩
  intro x
  rw [hmem]
  constructor
  · rintro ⟨us1, h1, _, hx⟩
    exact ⟨us1, h1, hx⟩
  · rintro ⟨us1, h1, hx⟩
    exact ⟨us1, h1, ⟨us1, h1, rfl⟩, hx⟩

theorem allHashesEqual_ok (c : Common) (usl : List UnitStatus)
    (h : ∀ us ∈ usl, (sliceIDOf c us).isSome = true) :
    ∃ hashesEqual, allHashesEqual c usl = .ok hashesEqual ∧
      (hashesEqual = true ↔
        ∀ us1 ∈ usl, ∀ us2 ∈ usl, c.UnitBase us1.Name = c.UnitBase us2.Name →
          ∀ m1 ∈ us1.Machine, ∀ m2 ∈ us2.Machine, m1.UnitHash = m2.UnitHash) := by
  obtain ⟨uhis, huhis, hmem⟩ := groupUnitHashInfos_ok c usl h
  refine ⟨uhis.all (fun uhi1 => uhis.all (fun uhi2 =>
      if uhi1.Base ≠ uhi2.Base then true
      else if uhi1.Hash ≠ uhi2.Hash then false
      else true)), by simp only [allHashesEqual, huhis], ?_⟩
  simp only [List.all_eq_true]
  constructor
  · intro hall us1 h1 us2 h2 hbase m1 hm1 m2 hm2
    obtain ⟨ID1, hID1⟩ := Option.isSome_iff_exists.1 (h us1 h1)
    obtain ⟨ID2, hID2⟩ := Option.isSome_iff_exists.1 (h us2 h2)
    have hx := hall (hashInfoOf c us1 ID1 m1) ((hmem _).2 ⟨us1, h1, ID1, hID1, m1, hm1, rfl⟩)
      (hashInfoOf c us2 ID2 m2) ((hmem _).2 ⟨us2, h2, ID2, hID2, m2, hm2, rfl⟩)
    by_contra hne
    simp [hashInfoOf, hbase, hne] at hx
  · intro hall x hx y hy
    obtain ⟨us1, h1, ID1, _, m1, hm1, rfl⟩ := (hmem x).1 hx
    obtain ⟨us2, h2, ID2, _, m2, hm2, rfl⟩ := (hmem y).1 hy
    by_cases hbase : c.UnitBase us1.Name = c.UnitBase us2.Name
    · simp [hashInfoOf, hbase, hall us1 h1 us2 h2 hbase m1 hm1 m2 hm2]
    · simp [hashInfoOf, hbase]

theorem groupUnitStatus_ok (c : Common) (usl : List UnitStatus) (us : UnitStatus)
    (ID : String) (h : sliceIDOf c us = some ID) :
    groupUnitStatus c usl us = .ok (cohortOf c usl ID, ID) := by
  simp [groupUnitStatus, sliceIDOf_eq_some.1 h, cohortOf]

theorem cohortOf_eq_slice (c : Common) (usl : List UnitStatus)
    (hcohort : ∀ us ∈ usl, ∀ ID ∈ sliceIDOf c us, ∀ other ∈ usl,
      (stringsHasSuffix (c.ExtExpStrip other.Name) ID = true ↔ sliceIDOf c other = some ID))
    (us : UnitStatus) (hus : us ∈ usl) (ID : String) (hID : sliceIDOf c us = some ID) :
    cohortOf c usl ID = usl.filter (fun other => decide (sliceIDOf c other = some ID)) := by
  apply List.filter_congr
  intro other hother
  have := hcohort us hus ID hID other hother
  by_cases h : sliceIDOf c other = some ID
  · simp [h, this.2 h]
  · have h3 : ¬ stringsHasSuffix (c.ExtExpStrip other.Name) ID = true :=
      fun h4 => h (this.1 h4)
    simp [h, h3]

theorem groupLoop_collapses (c : Common) (usl : List UnitStatus)
    (hparse : ∀ us ∈ usl, (sliceIDOf c us).isSome = true)
    (hsuffix : ∀ us ∈ usl, ∀ ID ∈ sliceIDOf c us,
      stringsHasSuffix (c.ExtExpStrip us.Name) ID = true)
    (hstates : ∀ us ∈ usl, ∀ ID ∈ sliceIDOf c us, statesAgree (cohortOf c usl ID))
    (rest : List UnitStatus) (hrest : ∀ us ∈ rest, us ∈ usl)
    (matchers : List String) (newList : List UnitStatus) :
    ∃ ids rows, groupLoop c usl true rest matchers newList = .ok (newList ++ rows) ∧
      ids.Nodup ∧
      (∀ ID, ID ∈ ids ↔ ID ∉ matchers ∧ ∃ us ∈ rest, sliceIDOf c us = some ID) ∧
      List.Forall₂
        (fun ID row => (∃ us ∈ usl, sliceIDOf c us = some ID) ∧
          ∃ member ∈ cohortOf c usl ID, row = { member with Name := "*" })
        ids rows := by
  induction rest generalizing matchers newList with
  | nil => exact ⟨[], [], by simp [groupLoop], List.nodup_nil, by simp, List.Forall₂.nil⟩
  | cons us rest ih =>
    have hus : us ∈ usl := hrest us (List.mem_cons_self _ _)
    have hrest2 : ∀ u ∈ rest, u ∈ usl := fun u hu => hrest u (List.mem_cons_of_mem _ hu)
    obtain ⟨ID, hID⟩ := Option.isSome_iff_exists.1 (hparse us hus)
    by_cases hseen : ID ∈ matchers
    · obtain ⟨ids, rows, hrun, hnodup, hids, hrows⟩ := ih hrest2 matchers newList
      refine ⟨ids, rows, ?_, hnodup, ?_, hrows⟩
      · simp [groupLoop, groupUnitStatus_ok c usl us ID hID, hseen, hrun]
      · intro ID2
        rw [hids ID2]
        constructor
        · rintro ⟨h1, u, hu, h2⟩
          exact ⟨h1, u, List.mem_cons_of_mem _ hu, h2⟩
        · rintro ⟨h1, u, hu, h2⟩
          rcases List.mem_cons.1 hu with rfl | hu
          · rw [hID] at h2
            cases h2
            exact absurd hseen h1
          · exact ⟨h1, u, hu, h2⟩
    · have hin : us ∈ cohortOf c usl ID :=
        List.mem_filter.2 ⟨hus, hsuffix us hus ID hID⟩
      have hagree : allStatesEqual (cohortOf c usl ID) = true :=
        (allStatesEqual_iff _).2 (hstates us hus ID hID)
      cases hco : cohortOf c usl ID with
      | nil => rw [hco] at hin; exact absurd hin (List.not_mem_nil _)
      | cons first others =>
        obtain ⟨ids, rows, hrun, hnodup, hids, hrows⟩ :=
          ih hrest2 (ID :: matchers) (newList ++ [{ first with Name := "*" }])
        refine ⟨ID :: ids, { first with Name := "*" } :: rows, ?_, ?_, ?_, ?_⟩
        · rw [hco] at hagree
          simp [groupLoop, groupUnitStatus_ok c usl us ID hID, hseen, hco, hagree, hrun]
        · refine List.nodup_cons.2 ⟨?_, hnodup⟩
          intro hmem
          exact ((hids ID).1 hmem).1 (List.mem_cons_self _ _)
        · intro ID2
          simp only [List.mem_cons, hids ID2, not_or, exists_eq_or_imp]
          constructor
          · rintro (rfl | ⟨⟨_, h1⟩, u, hu, h2⟩)
            · exact ⟨hseen, Or.inl hID⟩
            · exact ⟨h1, Or.inr ⟨u, hu, h2⟩⟩
          · rintro ⟨h1, h2⟩
            by_cases heq : ID2 = ID
            · exact Or.inl heq
            · refine Or.inr ⟨⟨heq, h1⟩, ?_⟩
              rcases h2 with h2 | h2
              · rw [hID] at h2
                cases h2
                exact absurd rfl heq
              · exact h2
        · refine List.Forall₂.cons ⟨⟨us, hus, hID⟩, first, ?_, rfl⟩ hrows
          rw [hco]
          exact List.mem_cons_self _ _

/-- C9 as stated fails: a list with a name that does not parse satisfies the
conditions on hashes and states, and `Group` fails on it; and when the name of
a unit of slice `11` ends with the slice ID `1`, two units whose states are equal
within their own slices (but not with each other) come out as three rows, two
of them under their own names. -/
theorem group_equal_cohorts_counterexample :
    (Group specCommon unparsableInput = .error (Fault.failed
      { cause := ErrorCause.foreign "common: invalid argument",
        message := "unit-main@1@2.service" })) ∧
    (Group specCommon
        [ { givenSingleUnitStatus "main" "1" with Name := "unit-main@1.service" },
          { givenSingleUnitStatus "main" "11" with
              Name := "unit-main@11.service", Current := "launched" } ]
      = .ok
        [ { givenSingleUnitStatus "main" "1" with Name := "unit-main@1.service" },
          { givenSingleUnitStatus "main" "11" with
              Name := "unit-main@11.service", Current := "launched" },
          { givenSingleUnitStatus "main" "11" with Name := "*", Current := "launched" } ]) := by
  constructor <;> decide

/-- C9, amended: let every name of the list parse and let the name of a unit,
with its extension stripped, end with a slice ID of the list exactly when that
ID is the unit's own slice ID; let all unit hashes be equal, and Current,
Desired and the machines' SystemdActive be equal among the units of each slice
ID.  Then `Group` succeeds and returns exactly one row per distinct slice ID of
the list, each a copy of a unit of that slice with Name `"*"`. -/
theorem group_equal_cohorts (c : Common) (usl : List UnitStatus)
    (hparse : ∀ us ∈ usl, (sliceIDOf c us).isSome = true)
    (hcohort : ∀ us ∈ usl, ∀ ID ∈ sliceIDOf c us, ∀ other ∈ usl,
      (stringsHasSuffix (c.ExtExpStrip other.Name) ID = true ↔ sliceIDOf c other = some ID))
    (hhash : ∀ us1 ∈ usl, ∀ us2 ∈ usl, ∀ m1 ∈ us1.Machine, ∀ m2 ∈ us2.Machine,
      m1.UnitHash = m2.UnitHash)
    (hstates : ∀ us ∈ usl,
      statesAgree (usl.filter (fun other => decide (sliceIDOf c other = sliceIDOf c us)))) :
    ∃ ids rows, Group c usl = .ok rows ∧
      ids.Nodup ∧ (∀ ID, ID ∈ ids ↔ ∃ us ∈ usl, sliceIDOf c us = some ID) ∧
      rows.length = ids.length ∧ (∀ row ∈ rows, row.Name = "*") ∧
      List.Forall₂
        (fun ID row => ∃ member ∈ usl, sliceIDOf c member = some ID ∧
          row = { member with Name := "*" })
        ids rows := by
  obtain ⟨hashesEqual, hrun, hiff⟩ := allHashesEqual_ok c usl hparse
  have htrue : hashesEqual = true :=
    hiff.2 (fun us1 h1 us2 h2 _ m1 hm1 m2 hm2 => hhash us1 h1 us2 h2 m1 hm1 m2 hm2)
  subst htrue
  have hsuffix : ∀ us ∈ usl, ∀ ID ∈ sliceIDOf c us,
      stringsHasSuffix (c.ExtExpStrip us.Name) ID = true :=
    fun us hus ID hID => (hcohort us hus ID hID us hus).2 hID
  have hstates2 : ∀ us ∈ usl, ∀ ID ∈ sliceIDOf c us, statesAgree (cohortOf c usl ID) := by
    intro us hus ID hID
    rw [cohortOf_eq_slice c usl hcohort us hus ID hID]
    have h := hstates us hus
    rw [Option.mem_def.1 hID] at h
    exact h
  obtain ⟨ids, rows, hloop, hnodup, hids, hrows⟩ :=
    groupLoop_collapses c usl hparse hsuffix hstates2 usl (fun _ h => h) [] []
  have hrows2 : List.Forall₂
      (fun ID row => ∃ member ∈ usl, sliceIDOf c member = some ID ∧
        row = { member with Name := "*" }) ids rows := by
    refine hrows.imp ?_
    rintro ID row ⟨⟨us, hus, hID⟩, member, hmember, rfl⟩
    rw [cohortOf_eq_slice c usl hcohort us hus ID hID] at hmember
    obtain ⟨h1, h2⟩ := List.mem_filter.1 hmember
    exact ⟨member, h1, by simpa using h2, rfl⟩
  refine ⟨ids, rows, ?_, hnodup, ?_, hrows.length_eq.symm, ?_, hrows2⟩
  · simp only [Group, hrun, hloop, List.nil_append]
  · intro ID
    simp [hids ID]
  · intro row hrow
    obtain ⟨i, hi, rfl⟩ := List.getElem_of_mem hrow
    have hlen := hrows2.length_eq
    obtain ⟨member, _, _, heq⟩ := (List.forall₂_iff_get.1 hrows2).2 i (hlen ▸ hi) hi
    simp only [List.get_eq_getElem] at heq
    rw [heq]

/-- C9 amended, at the input of the test: four units with slice IDs 1, 1, 2, 2
give the two rows named `"*"`. -/
theorem group_equal_cohorts_witness :
    Group specCommon noDiffInput = .ok [givenGroupedStatus "1", givenGroupedStatus "2"] ∧
    ∃ ids rows, Group specCommon noDiffInput = .ok rows ∧
      ids.Nodup ∧ (∀ ID, ID ∈ ids ↔ ∃ us ∈ noDiffInput, sliceIDOf specCommon us = some ID) ∧
      rows.length = ids.length ∧ (∀ row ∈ rows, row.Name = "*") ∧
      List.Forall₂
        (fun ID row => ∃ member ∈ noDiffInput, sliceIDOf specCommon member = some ID ∧
          row = { member with Name := "*" })
        ids rows :=
  ⟨by decide,
   group_equal_cohorts specCommon noDiffInput (by decide) (by decide) (by decide) (by decide)⟩

theorem filter_append_filter_perm {α : Type} (p q r : α → Bool) (l : List α)
    (hr : ∀ a ∈ l, r a = (p a || q a)) (hdisjoint : ∀ a ∈ l, p a = true → q a = false) :
    (l.filter p ++ l.filter q).Perm (l.filter r) := by
  induction l with
  | nil => simp
  | cons a l ih =>
    have ih2 := ih (fun b hb => hr b (List.mem_cons_of_mem _ hb))
      (fun b hb => hdisjoint b (List.mem_cons_of_mem _ hb))
    have hra := hr a (List.mem_cons_self _ _)
    have hda := hdisjoint a (List.mem_cons_self _ _)
    cases hp : p a with
    | true =>
      have hq : q a = false := hda hp
      have hra2 : r a = true := by rw [hra, hp, hq]; rfl
      simp only [List.filter_cons, hp, hq, hra2, if_true, List.cons_append]
      exact List.Perm.cons a ih2
    | false =>
      cases hq : q a with
      | true =>
        have hra2 : r a = true := by rw [hra, hp, hq]; rfl
        simp only [List.filter_cons, hp, hq, hra2, if_true]
        exact List.perm_middle.trans (List.Perm.cons a ih2)
      | false =>
        have hra2 : r a = false := by rw [hra, hp, hq]; rfl
        simp only [List.filter_cons, hp, hq, hra2]
        exact ih2

theorem groupLoop_expands (c : Common) (usl : List UnitStatus)
    (hparse : ∀ us ∈ usl, (sliceIDOf c us).isSome = true)
    (hcohort : ∀ us ∈ usl, ∀ ID ∈ sliceIDOf c us, ∀ other ∈ usl,
      (stringsHasSuffix (c.ExtExpStrip other.Name) ID = true ↔ sliceIDOf c other = some ID))
    (rest : List UnitStatus) (hrest : ∀ us ∈ rest, us ∈ usl)
    (matchers : List String) (newList : List UnitStatus) :
    ∃ rows, groupLoop c usl false rest matchers newList = .ok (newList ++ rows) ∧
      rows.Perm (usl.filter (awaitsCohort c rest matchers)) := by
  induction rest generalizing matchers newList with
  | nil =>
    refine ⟨[], by simp [groupLoop], ?_⟩
    have : usl.filter (awaitsCohort c [] matchers) = [] := by
      apply List.filter_eq_nil_iff.2
      intro other _
      unfold awaitsCohort
      cases sliceIDOf c other <;> simp
    rw [this]
  | cons us rest ih =>
    have hus : us ∈ usl := hrest us (List.mem_cons_self _ _)
    have hrest2 : ∀ u ∈ rest, u ∈ usl := fun u hu => hrest u (List.mem_cons_of_mem _ hu)
    obtain ⟨ID, hID⟩ := Option.isSome_iff_exists.1 (hparse us hus)
    by_cases hseen : ID ∈ matchers
    · obtain ⟨rows, hrun, hperm⟩ := ih hrest2 matchers newList
      refine ⟨rows, ?_, ?_⟩
      · simp [groupLoop, groupUnitStatus_ok c usl us ID hID, hseen, hrun]
      · have hsame : usl.filter (awaitsCohort c (us :: rest) matchers)
            = usl.filter (awaitsCohort c rest matchers) := by
          apply List.filter_congr
          intro other _
          unfold awaitsCohort
          cases hother : sliceIDOf c other with
          | none => rfl
          | some ID2 =>
            by_cases h2 : ID2 ∈ matchers
            · simp [h2]
            · have hne : ID ≠ ID2 := fun h => h2 (h ▸ hseen)
              simp [h2, hID, hne]
        rw [hsame]
        exact hperm
    · obtain ⟨rows, hrun, hperm⟩ :=
        ih hrest2 (ID :: matchers) (newList ++ cohortOf c usl ID)
      refine ⟨cohortOf c usl ID ++ rows, ?_, ?_⟩
      · simp [groupLoop, groupUnitStatus_ok c usl us ID hID, hseen, hrun]
      · have hco := cohortOf_eq_slice c usl hcohort us hus ID hID
        refine (List.Perm.append_left _ hperm).trans ?_
        rw [hco]
        apply filter_append_filter_perm
        · intro other _
          unfold awaitsCohort
          cases hother : sliceIDOf c other with
          | none => simp
          | some ID2 =>
            by_cases heq : ID2 = ID
            · subst heq
              simp [hseen, hID]
            · have hne : ID ≠ ID2 := fun h => heq h.symm
              simp [heq, hID, hne]
        · intro other _ hp
          unfold awaitsCohort
          cases hother : sliceIDOf c other with
          | none => rfl
          | some ID2 =>
            rw [hother] at hp
            simp only [Option.some.injEq, decide_eq_true_eq] at hp
            simp [hp]

/-- C10 as stated fails: on a list with a name that does not parse `Group`
fails; and when the name of a unit of slice `11` ends with the slice ID `1`,
that unit is written once for either slice, so two units with different
hashes come out as three rows. -/
theorem group_hash_differs_counterexample :
    (Group specCommon (unparsableInput ++ unitHashDiffsInput) = .error (Fault.failed
      { cause := ErrorCause.foreign "common: invalid argument",
        message := "unit-main@1@2.service" })) ∧
    (Group specCommon overlappingSlicesInput
      = .ok (overlappingSlicesInput ++ overlappingSlicesInput.drop 1)) := by
  constructor <;> decide

/-- C10, amended: let every name of the list parse and let the name of a unit,
with its extension stripped, end with a slice ID of the list exactly when that
ID is the unit's own slice ID; if the UnitHash of some unit differs from that
of a unit with the same base, `Group` collapses no cohort: it succeeds and
returns the elements of the list, each as often as in the list, in some
order, so as many rows as the list has. -/
theorem group_hash_differs (c : Common) (usl : List UnitStatus)
    (hparse : ∀ us ∈ usl, (sliceIDOf c us).isSome = true)
    (hcohort : ∀ us ∈ usl, ∀ ID ∈ sliceIDOf c us, ∀ other ∈ usl,
      (stringsHasSuffix (c.ExtExpStrip other.Name) ID = true ↔ sliceIDOf c other = some ID))
    (hdiff : ∃ us1 ∈ usl, ∃ us2 ∈ usl, c.UnitBase us1.Name = c.UnitBase us2.Name ∧
      ∃ m1 ∈ us1.Machine, ∃ m2 ∈ us2.Machine, m1.UnitHash ≠ m2.UnitHash) :
    ∃ rows, Group c usl = .ok rows ∧ rows.Perm usl ∧ rows.length = usl.length := by
  obtain ⟨hashesEqual, hrun, hiff⟩ := allHashesEqual_ok c usl hparse
  have hfalse : hashesEqual = false := by
    cases hh : hashesEqual with
    | false => rfl
    | true =>
      obtain ⟨us1, h1, us2, h2, hbase, m1, hm1, m2, hm2, hne⟩ := hdiff
      exact absurd (hiff.1 hh us1 h1 us2 h2 hbase m1 hm1 m2 hm2) hne
  subst hfalse
  obtain ⟨rows, hloop, hperm⟩ :=
    groupLoop_expands c usl hparse hcohort usl (fun _ h => h) [] []
  have hall : usl.filter (awaitsCohort c usl []) = usl := by
    apply List.filter_eq_self.2
    intro other hother
    obtain ⟨ID, hID⟩ := Option.isSome_iff_exists.1 (hparse other hother)
    unfold awaitsCohort
    simp only [hID, List.contains_nil, Bool.not_false, Bool.true_and, List.any_eq_true,
      decide_eq_true_eq]
    exact ⟨other, hother, hID⟩
  rw [hall] at hperm
  exact ⟨rows, by simp only [Group, hrun, hloop, List.nil_append], hperm, hperm.length_eq⟩

/-- C10 amended, at the input of the test: slice IDs 1, 1, 2, 2 with one
changed hash give the four input rows. -/
theorem group_hash_differs_witness :
    Group specCommon unitHashDiffsInput = .ok unitHashDiffsInput ∧
    ∃ rows, Group specCommon unitHashDiffsInput = .ok rows ∧
      rows.Perm unitHashDiffsInput ∧ rows.length = unitHashDiffsInput.length :=
  ⟨by decide,
   group_hash_differs specCommon unitHashDiffsInput (by decide) (by decide)
    ⟨givenSingleUnitStatus "main" "1", by decide, changedHashUnit, by decide, by decide,
     (givenSingleUnitStatus "main" "1").Machine.head (by decide), by decide,
     changedHashUnit.Machine.head (by decide), by decide, by decide⟩⟩

/-! ### The pattern grammar of `matchState` -/

theorem splitChars_ne_nil (sep : Char) (l : List Char) : splitChars sep l ≠ [] := by
  cases l with
  | nil => simp [splitChars]
  | cons c cs =>
    unfold splitChars
    split
    · simp
    · split <;> simp

theorem sep_not_mem_of_mem_splitChars (sep : Char) (l : List Char) :
    ∀ piece ∈ splitChars sep l, sep ∉ piece := by
  induction l with
  | nil => simp [splitChars]
  | cons c cs ih =>
    intro piece hpiece
    unfold splitChars at hpiece
    split at hpiece
    · rcases List.mem_cons.1 hpiece with rfl | h
      · simp
      · exact ih piece h
    · rename_i hc
      split at hpiece
      · simp only [List.mem_singleton] at hpiece
        subst hpiece
        simpa using Ne.symm hc
      · rename_i first others heq
        rcases List.mem_cons.1 hpiece with rfl | h
        · have h1 : sep ∉ first := ih first (by rw [heq]; exact List.mem_cons_self _ _)
          simp only [List.mem_cons, not_or]
          exact ⟨Ne.symm hc, h1⟩
        · exact ih piece (by rw [heq]; exact List.mem_cons_of_mem _ h)

theorem intercalate_splitChars (sep : Char) (l : List Char) :
    [sep].intercalate (splitChars sep l) = l := by
  induction l with
  | nil => simp [splitChars, List.intercalate]
  | cons c cs ih =>
    unfold splitChars
    split
    · rename_i hc
      cases hrest : splitChars sep cs with
      | nil => exact absurd hrest (splitChars_ne_nil sep cs)
      | cons first others =>
        rw [hrest] at ih
        rw [← ih, hc]
        simp [List.intercalate, List.intersperse]
    · cases hrest : splitChars sep cs with
      | nil => exact absurd hrest (splitChars_ne_nil sep cs)
      | cons first others =>
        rw [hrest] at ih
        rw [← ih]
        cases others <;> simp [List.intercalate, List.intersperse]

/-- C19: `matchState` accepts every remote state when the indexed state is
`"*"`; for any other indexed state it accepts exactly the remote states equal
to one of the tokens of the indexed state, the tokens being the pieces between
the `|` characters (none contains `|`, and joined by `|` they give the indexed
state back), so a remote state containing `|` is never accepted, and neither
is a proper beginning, an inner part or a differently cased spelling of a
token. -/
theorem matchState_characterised (indexed remote : String) :
    matchState "*" remote = true ∧
    (indexed = "*" ∨
      ((matchState indexed remote = true ↔ remote ∈ stringsSplit indexed '|') ∧
       ('|' ∈ remote.data → matchState indexed remote = false))) ∧
    (∀ token ∈ stringsSplit indexed '|', '|' ∉ token.data) ∧
    ['|'].intercalate ((stringsSplit indexed '|').map String.data) = indexed.data ∧
    matchState "loaded|launched" "load" = false ∧
    matchState "loaded|launched" "aunch" = false ∧
    matchState "loaded|launched" "Loaded" = false ∧
    matchState "loaded|launched" "loaded|launched" = false := by
  have htokens : ∀ token ∈ stringsSplit indexed '|', '|' ∉ token.data := by
    intro token htoken
    simp only [stringsSplit, List.mem_map] at htoken
    obtain ⟨piece, hpiece, rfl⟩ := htoken
    exact sep_not_mem_of_mem_splitChars _ _ piece hpiece
  have hiff : indexed ≠ "*" →
      (matchState indexed remote = true ↔ remote ∈ stringsSplit indexed '|') := by
    intro hne
    simp only [matchState, hne, if_false, List.any_eq_true, decide_eq_true_eq]
    constructor
    · rintro ⟨token, htoken, rfl⟩
      exact htoken
    · intro h
      exact ⟨remote, h, rfl⟩
  refine ⟨by simp [matchState], ?_, htokens, ?_, by decide, by decide, by decide, by decide⟩
  · by_cases hstar : indexed = "*"
    · exact Or.inl hstar
    · refine Or.inr ⟨hiff hstar, ?_⟩
      intro hbar
      cases hm : matchState indexed remote with
      | false => rfl
      | true => exact absurd hbar (htokens remote ((hiff hstar).1 hm))
  · simp only [stringsSplit, List.map_map]
    have : (String.data ∘ String.mk) = id := by
      funext l
      rfl
    rw [this, List.map_id]
    exact intercalate_splitChars _ _

/-! ### The grouper against its comments -/

/-- C20: on a list with the slices `1` and `11`, `groupUnitStatus` called for
the unit of slice `1` returns both units: the unit of slice `11` is not left
out, because its name ends with `1`. -/
theorem groupUnitStatus_returns_other_slice :
    overlappingSlicesInput.map (sliceIDOf specCommon) = [some "1", some "11"] ∧
    groupUnitStatus specCommon overlappingSlicesInput
        (overlappingSlicesInput.head (by decide))
      = .ok (overlappingSlicesInput, "1") := by
  constructor <;> decide

/-- C11: on a list of two units with the slices `1` and `11` and different
hashes `Group` succeeds and returns three rows, one more than it was given. -/
theorem group_longer_than_input :
    overlappingSlicesInput.length = 2 ∧
    (Group specCommon overlappingSlicesInput).toOption.map List.length = some 3 := by
  constructor <;> decide

/-- C13: for a unit with a machine whose name does not parse, `Group` fails
with the error of `common.SliceID`, handed on by `groupUnitHashInfos`, which is
not of kind InvalidUnitStatus; for the same unit without machines it fails with
`invalidUnitStatusError`, set by `groupUnitStatus`. -/
theorem group_unparsable_error_kind :
    (∃ err, Group specCommon unparsableInput = .error (Fault.failed err) ∧
      IsInvalidUnitStatus err = false) ∧
    (∃ err, Group specCommon unparsableWithoutMachines = .error (Fault.failed err) ∧
      IsInvalidUnitStatus err = true) := by
  refine ⟨⟨{ cause := ErrorCause.foreign "common: invalid argument",
             message := "unit-main@1@2.service" }, by decide, by decide⟩,
    ⟨invalidUnitStatusError, by decide, by decide⟩⟩

theorem allStatesEqual_eq_decide (usl : List UnitStatus) :
    allStatesEqual usl = decide (statesAgree usl) := by
  cases h : allStatesEqual usl with
  | true => exact (decide_eq_true ((allStatesEqual_iff usl).1 h)).symm
  | false =>
    have : ¬ statesAgree usl := fun hs => by
      rw [(allStatesEqual_iff usl).2 hs] at h
      exact absurd h (by decide)
    exact (decide_eq_false this).symm

theorem groupLoop_as_specified (c : Common) (usl : List UnitStatus) (hashesEqual : Bool)
    (hparse : ∀ us ∈ usl, (sliceIDOf c us).isSome = true)
    (hsuffix : ∀ us ∈ usl, ∀ ID ∈ sliceIDOf c us,
      stringsHasSuffix (c.ExtExpStrip us.Name) ID = true)
    (rest : List UnitStatus) (hrest : ∀ us ∈ rest, us ∈ usl)
    (matchers : List String) (newList : List UnitStatus) :
    groupLoop c usl hashesEqual rest matchers newList =
      .ok (newList ++
        ((firstOccurrences (rest.filterMap (sliceIDOf c))).filter
            (fun ID => decide (ID ∉ matchers))).flatMap (fun ID =>
          rowsOfCohort (hashesEqual && decide (statesAgree (cohortOf c usl ID)))
            (cohortOf c usl ID))) := by
  induction rest generalizing matchers newList with
  | nil => simp [groupLoop, firstOccurrences]
  | cons us rest ih =>
    have hus : us ∈ usl := hrest us (List.mem_cons_self _ _)
    have hrest2 : ∀ u ∈ rest, u ∈ usl := fun u hu => hrest u (List.mem_cons_of_mem _ hu)
    obtain ⟨ID, hID⟩ := Option.isSome_iff_exists.1 (hparse us hus)
    have hids : (us :: rest).filterMap (sliceIDOf c) = ID :: rest.filterMap (sliceIDOf c) := by
      simp [List.filterMap_cons, hID]
    rw [hids, firstOccurrences]
    by_cases hseen : ID ∈ matchers
    · have hstep : groupLoop c usl hashesEqual (us :: rest) matchers newList
          = groupLoop c usl hashesEqual rest matchers newList := by
        simp [groupLoop, groupUnitStatus_ok c usl us ID hID, hseen]
      rw [hstep, ih hrest2]
      have hfilter : (ID :: (firstOccurrences (rest.filterMap (sliceIDOf c))).filter
            (fun other => decide (other ≠ ID))).filter (fun ID => decide (ID ∉ matchers))
          = (firstOccurrences (rest.filterMap (sliceIDOf c))).filter
              (fun ID => decide (ID ∉ matchers)) := by
        rw [List.filter_cons, if_neg (by simpa using hseen), List.filter_filter]
        apply List.filter_congr
        intro other _
        by_cases h : other ∈ matchers
        · simp [h]
        · have hne : other ≠ ID := fun heq => h (heq ▸ hseen)
          simp [h, hne]
      rw [hfilter]
    · have hin : us ∈ cohortOf c usl ID :=
        List.mem_filter.2 ⟨hus, hsuffix us hus ID hID⟩
      have hfilter : (ID :: (firstOccurrences (rest.filterMap (sliceIDOf c))).filter
            (fun other => decide (other ≠ ID))).filter (fun ID => decide (ID ∉ matchers))
          = ID :: (firstOccurrences (rest.filterMap (sliceIDOf c))).filter
              (fun other => decide (other ∉ ID :: matchers)) := by
        rw [List.filter_cons, if_pos (by simpa using hseen), List.filter_filter]
        congr 1
        apply List.filter_congr
        intro other _
        by_cases h : other ∈ matchers
        · simp [h]
        · by_cases hne : other = ID
          · simp [h, hne]
          · simp [h, hne]
      rw [hfilter, List.flatMap_cons]
      by_cases hcollapse :
          (hashesEqual && decide (statesAgree (cohortOf c usl ID))) = true
      · cases hco : cohortOf c usl ID with
        | nil => rw [hco] at hin; exact absurd hin (List.not_mem_nil _)
        | cons first others =>
          have hstep : groupLoop c usl hashesEqual (us :: rest) matchers newList
              = groupLoop c usl hashesEqual rest (ID :: matchers)
                  (newList ++ [{ first with Name := "*" }]) := by
            rw [hco, ← allStatesEqual_eq_decide] at hcollapse
            simp [groupLoop, groupUnitStatus_ok c usl us ID hID, hseen, hco, hcollapse]
          rw [hstep, ih hrest2, ← hco, hcollapse]
          simp [rowsOfCohort, hco]
      · have hstep : groupLoop c usl hashesEqual (us :: rest) matchers newList
            = groupLoop c usl hashesEqual rest (ID :: matchers)
                (newList ++ cohortOf c usl ID) := by
          have h2 := hcollapse
          rw [← allStatesEqual_eq_decide] at h2
          simp [groupLoop, groupUnitStatus_ok c usl us ID hID, hseen, h2]
        rw [hstep, ih hrest2]
        simp [rowsOfCohort, hcollapse]

theorem mem_of_mem_firstOccurrences (ID : String) (ids : List String)
    (h : ID ∈ firstOccurrences ids) : ID ∈ ids := by
  induction ids with
  | nil => simp [firstOccurrences] at h
  | cons first rest ih =>
    rw [firstOccurrences] at h
    rcases List.mem_cons.1 h with rfl | h2
    · exact List.mem_cons_self _ _
    · exact List.mem_cons_of_mem _ (ih (List.mem_filter.1 h2).1)

theorem flatMap_eq_of_eq_on_members {α β : Type} (l : List α) (f g : α → List β)
    (h : ∀ a ∈ l, f a = g a) : l.flatMap f = l.flatMap g := by
  induction l with
  | nil => rfl
  | cons a l ih =>
    rw [List.flatMap_cons, List.flatMap_cons, h a (List.mem_cons_self _ _),
      ih (fun b hb => h b (List.mem_cons_of_mem _ hb))]

/-- Where the name of a unit, with its extension stripped, ends with a slice
ID of the list exactly when that ID is the unit's own, `Group` returns what
the spec words: for a list whose names all parse, the concatenation, over the
slice IDs in order of first occurrence, of the rows of each slice cohort. -/
theorem group_eq_specified_of_separate_slices (c : Common) (usl : List UnitStatus)
    (hparse : ∀ us ∈ usl, (sliceIDOf c us).isSome = true)
    (hcohort : ∀ us ∈ usl, ∀ ID ∈ sliceIDOf c us, ∀ other ∈ usl,
      (stringsHasSuffix (c.ExtExpStrip other.Name) ID = true ↔ sliceIDOf c other = some ID)) :
    Group c usl = .ok (groupedAsSpecified c usl) := by
  have hsuffix : ∀ us ∈ usl, ∀ ID ∈ sliceIDOf c us,
      stringsHasSuffix (c.ExtExpStrip us.Name) ID = true :=
    fun us hus ID hID => (hcohort us hus ID hID us hus).2 hID
  obtain ⟨hashesEqual, hrun, hiff⟩ := allHashesEqual_ok c usl hparse
  have hdec : hashesEqual = decide (hashesEqualAcrossSameBase c usl) := by
    cases hh : hashesEqual with
    | true =>
      rw [hh] at hiff
      exact (decide_eq_true (hiff.1 rfl)).symm
    | false =>
      rw [hh] at hiff
      have : ¬ hashesEqualAcrossSameBase c usl := fun h => by
        have := hiff.2 h
        exact absurd this (by decide)
      exact (decide_eq_false this).symm
  simp only [Group, hrun]
  rw [groupLoop_as_specified c usl hashesEqual hparse hsuffix usl (fun _ h => h) [] [], hdec]
  simp only [List.not_mem_nil, not_false_eq_true, decide_True, List.filter_true,
    List.nil_append, groupedAsSpecified]
  congr 1
  apply flatMap_eq_of_eq_on_members
  intro ID hID
  have hmem := mem_of_mem_firstOccurrences ID _ hID
  obtain ⟨us, hus, hsome⟩ := List.mem_filterMap.1 hmem
  have hco : cohortOf c usl ID = sliceCohort c usl ID :=
    cohortOf_eq_slice c usl hcohort us hus ID hsome
  rw [hco]

/-- The reference output and `Group` at the second input of
`Test_UnitStatusList_Group`: slice 1 with differing states stays as two named
rows, followed by one `"*"` row for slice 2. -/
theorem group_eq_specified_at_test :
    groupedAsSpecified specCommon differingStatesInput
      = differingStatesInput.take 2 ++
        [{ differingStatesInput.get ⟨2, by decide⟩ with Name := "*" }] ∧
    Group specCommon differingStatesInput
      = .ok (groupedAsSpecified specCommon differingStatesInput) :=
  ⟨by decide,
   group_eq_specified_of_separate_slices specCommon differingStatesInput
    (by decide) (by decide)⟩

/-- C12: on the list of two units of one base with the slices `1` and `11`
and different hashes, whose names both parse, the concatenation over the slice
IDs `1` and `11` of the members of each slice cohort is the list itself, two
rows; `Group` returns three rows, the unit of slice `11` being written for
slice `1` too. -/
theorem group_differs_from_specified_on_overlap :
    overlappingSlicesInput.map (sliceIDOf specCommon) = [some "1", some "11"] ∧
    groupedAsSpecified specCommon overlappingSlicesInput = overlappingSlicesInput ∧
    Group specCommon overlappingSlicesInput
      = .ok (overlappingSlicesInput ++ overlappingSlicesInput.drop 1) ∧
    Group specCommon overlappingSlicesInput
      ≠ .ok (groupedAsSpecified specCommon overlappingSlicesInput) := by
  refine ⟨by decide, by decide, by decide, by decide⟩

/-! ### The validator and the submit request -/

/-- The model of `ValidateRequest` gives the verdicts `TestValidateRequest`
expects, case by case. -/
theorem validateRequest_agrees_with_tests :
    ValidateRequest (requestOf "empty" [])
      = (false, some { cause := ErrorCause.noUnitsInGroupError, message := "" }) ∧
    ValidateRequest (requestOf "single" ["single-unit.service"]) = (true, none) ∧
    ValidateRequest (requestOf "single" ["single-unit.service", "single-unit2.timer"])
      = (true, none) ∧
    ValidateRequest (requestOf "scalable" ["scalable-unit@.service"]) = (true, none) ∧
    ValidateRequest (requestOf "scalable" ["scalable-unit@.service", "scalable-unit2@.timer"])
      = (true, none) ∧
    ValidateRequest (requestOf "mix" ["mix-unit1.service", "mix-unit2@.service"])
      = (false, some { cause := ErrorCause.mixedSliceInstanceError, message := "" }) ∧
    ValidateRequest (requestOf "single" ["bad-prefix.service"])
      = (false, some { cause := ErrorCause.badUnitPrefixError, message := "" }) ∧
    ValidateRequest (requestOf "bad@groupname@" ["bad@groupname@.service"])
      = (false, some { cause := ErrorCause.atInGroupNameError, message := "" }) ∧
    ValidateRequest (requestOf "group" ["group-un@it@.service"])
      = (false, some { cause := ErrorCause.multipleAtInUnitNameError, message := "" }) ∧
    ValidateRequest (requestOf "group" ["group-unit1@.service", "group-unit@.service",
        "group-unit2@.service", "group-unit@.service"])
      = (false, some { cause := ErrorCause.unitsSameNameError, message := "" }) := by
  refine ⟨?_, ?_, ?_, ?_, ?_, ?_, ?_, ?_, ?_, ?_⟩ <;> decide

/-- The model of `ValidateMultipleRequest` gives the verdicts
`TestValidateMultipleRequest` expects, case by case. -/
theorem validateMultipleRequest_agrees_with_tests :
    ValidateMultipleRequest [requestOf "a" [], requestOf "b" []] = (true, none) ∧
    ValidateMultipleRequest [requestOf "bat" [], requestOf "batman" []]
      = (false, some { cause := ErrorCause.groupsArePrefixError, message := "" }) ∧
    ValidateMultipleRequest [requestOf "batwoman" [], requestOf "batman" []] = (true, none) ∧
    ValidateMultipleRequest [requestOf "joker" [], requestOf "joker" []]
      = (false, some { cause := ErrorCause.groupsSameNameError, message := "" }) := by
  refine ⟨?_, ?_, ?_, ?_⟩ <;> decide

theorem validateRequest_eq_find (r : Request) :
    ValidateRequest r =
      (match documentedOrder.find? (fun rule => violates r rule) with
       | none => (true, none)
       | some rule => (false, some { cause := rule.cause, message := "" })) := by
  unfold ValidateRequest documentedOrder
  cases h1 : violates r .NoUnitsInGroup <;> cases h2 : violates r .AtInGroupName <;>
    cases h3 : violates r .BadUnitPrefix <;> cases h4 : violates r .MultipleAtInUnitName <;>
    cases h5 : violates r .UnitsSameName <;> cases h6 : violates r .MixedSliceInstance <;>
    simp [List.find?, h1, h2, h3, h4, h5, h6, maskAny, ValidationRule.cause]

/-- C14: `ValidateRequest` returns `(true, nil)` exactly when none of the six
rules is violated, and otherwise false with the kind of the first violated
rule in the order NoUnitsInGroup, AtInGroupName, BadUnitPrefix,
MultipleAtInUnitName, UnitsSameName, MixedSliceInstance; the group
`bad@groupname@` with the unit `bad@groupname@.service` violates AtInGroupName
and MultipleAtInUnitName and is answered with AtInGroupName. -/
theorem validateRequest_first_violated_rule (r : Request) :
    ValidateRequest r =
      (match documentedOrder.find? (fun rule => violates r rule) with
       | none => (true, none)
       | some rule => (false, some { cause := rule.cause, message := "" })) ∧
    (ValidateRequest r = (true, none) ↔ ∀ rule, violates r rule = false) ∧
    violates (requestOf "bad@groupname@" ["bad@groupname@.service"])
      .MultipleAtInUnitName = true ∧
    ValidateRequest (requestOf "bad@groupname@" ["bad@groupname@.service"])
      = (false, some { cause := ErrorCause.atInGroupNameError, message := "" }) := by
  refine ⟨validateRequest_eq_find r, ?_, by decide, by decide⟩
  rw [validateRequest_eq_find]
  constructor
  · intro h rule
    cases hfind : documentedOrder.find? (fun rule => violates r rule) with
    | some found => rw [hfind] at h; simp at h
    | none =>
      have hall := List.find?_eq_none.1 hfind rule (by cases rule <;> simp [documentedOrder])
      simpa using hall
  · intro h
    have hfind : documentedOrder.find? (fun rule => violates r rule) = none :=
      List.find?_eq_none.2 (fun rule _ => by simp [h rule])
    rw [hfind]

/-- C16: for a request that passes the five earlier rules, `ValidateRequest`
fails with MixedSliceInstance exactly when some unit names contain `@` and
some do not; otherwise, with all names containing `@` or all lacking it, the
request is valid. -/
theorem validateRequest_mixed_slice_instance (r : Request)
    (h1 : violates r .NoUnitsInGroup = false) (h2 : violates r .AtInGroupName = false)
    (h3 : violates r .BadUnitPrefix = false) (h4 : violates r .MultipleAtInUnitName = false)
    (h5 : violates r .UnitsSameName = false) :
    (ValidateRequest r
        = (false, some { cause := ErrorCause.mixedSliceInstanceError, message := "" }) ↔
      (∃ unit ∈ r.Units, '@' ∈ unit.Name.data) ∧ (∃ unit ∈ r.Units, '@' ∉ unit.Name.data)) ∧
    (ValidateRequest r = (true, none) ↔
      (∀ unit ∈ r.Units, '@' ∈ unit.Name.data) ∨ (∀ unit ∈ r.Units, '@' ∉ unit.Name.data)) := by
  have hmixed : violates r .MixedSliceInstance = true ↔
      (∃ unit ∈ r.Units, '@' ∈ unit.Name.data) ∧ (∃ unit ∈ r.Units, '@' ∉ unit.Name.data) := by
    simp [violates, containsAt]
  unfold ValidateRequest
  simp only [h1, h2, h3, h4, h5, Bool.false_eq_true, if_false]
  cases h6 : violates r .MixedSliceInstance with
  | true =>
    have hm := hmixed.1 h6
    simp only [if_true, maskAny, true_iff]
    refine ⟨hm, ?_⟩
    simp only [Prod.mk.injEq, Bool.false_eq_true, false_and, false_iff, not_or]
    obtain ⟨⟨u, hu, hin⟩, ⟨v, hv, hout⟩⟩ := hm
    exact ⟨fun hall => hout (hall v hv), fun hall => hall u hu hin⟩
  | false =>
    have hm : ¬ ((∃ unit ∈ r.Units, '@' ∈ unit.Name.data) ∧
        (∃ unit ∈ r.Units, '@' ∉ unit.Name.data)) := by
      intro hm
      rw [hmixed.2 hm] at h6
      exact absurd h6 (by decide)
    simp only [Bool.false_eq_true, if_false]
    refine ⟨⟨fun h => by simp at h, fun h => absurd h hm⟩, ⟨fun _ => ?_, fun _ => trivial⟩⟩
    by_contra hnot
    simp only [not_or, not_forall] at hnot
    obtain ⟨⟨u, hu, hout⟩, ⟨v, hv, hin⟩⟩ := hnot
    exact hm ⟨⟨v, hv, by simpa using hin⟩, ⟨u, hu, hout⟩⟩

/-- C16, at the group of the test: `mix` with `mix-unit1.service` and
`mix-unit2@.service` passes the five earlier rules and is rejected with
MixedSliceInstance. -/
theorem validateRequest_mixed_slice_instance_witness :
    ValidateRequest (requestOf "mix" ["mix-unit1.service", "mix-unit2@.service"])
      = (false, some { cause := ErrorCause.mixedSliceInstanceError, message := "" }) :=
  (validateRequest_mixed_slice_instance
    (requestOf "mix" ["mix-unit1.service", "mix-unit2@.service"])
    (by decide) (by decide) (by decide) (by decide) (by decide)).1.2
    ⟨⟨{ Name := "mix-unit2@.service", Content := "" }, by decide, by decide⟩,
     ⟨{ Name := "mix-unit1.service", Content := "" }, by decide, by decide⟩⟩

/-- C15: for requests with pairwise distinct group names,
`ValidateMultipleRequest` fails with GroupsArePrefix when one group name is a
proper beginning of another and returns `(true, nil)` when none is; the units
of the requests play no part. -/
theorem validateMultipleRequest_proper_beginning (requests : List Request)
    (hdistinct : (requests.map (fun r => r.Group)).Nodup) :
    ((∃ a ∈ requests, ∃ b ∈ requests, a.Group ≠ b.Group ∧ a.Group.data <+: b.Group.data) →
      ValidateMultipleRequest requests
        = (false, some { cause := ErrorCause.groupsArePrefixError, message := "" })) ∧
    ((¬ ∃ a ∈ requests, ∃ b ∈ requests, a.Group ≠ b.Group ∧ a.Group.data <+: b.Group.data) →
      ValidateMultipleRequest requests = (true, none)) ∧
    ValidateMultipleRequest (requests.map (fun r => { r with Units := [] }))
      = ValidateMultipleRequest requests := by
  have hany : requests.any (fun a => requests.any (fun b => properBeginning a.Group b.Group))
      = true ↔
      ∃ a ∈ requests, ∃ b ∈ requests, a.Group ≠ b.Group ∧ a.Group.data <+: b.Group.data := by
    simp [properBeginning, List.isPrefixOf_iff_prefix]
  refine ⟨?_, ?_, ?_⟩
  · intro h
    simp only [ValidateMultipleRequest, hdistinct, not_true_eq_false, if_false,
      hany.2 h, if_true, maskAny]
  · intro h
    have hfalse : ¬ requests.any
        (fun a => requests.any (fun b => properBeginning a.Group b.Group)) = true :=
      fun hh => h (hany.1 hh)
    simp only [ValidateMultipleRequest, hdistinct, not_true_eq_false, if_false, hfalse,
      Bool.false_eq_true]
  · simp only [ValidateMultipleRequest, List.map_map, List.any_map]
    rfl

/-- C15, at the groups of the tests: `bat` and `batman` are rejected with
GroupsArePrefix, `batwoman` and `batman` are valid; none of the requests has
a unit. -/
theorem validateMultipleRequest_proper_beginning_witness :
    ValidateMultipleRequest [requestOf "bat" [], requestOf "batman" []]
      = (false, some { cause := ErrorCause.groupsArePrefixError, message := "" }) ∧
    ValidateMultipleRequest [requestOf "batwoman" [], requestOf "batman" []] = (true, none) :=
  ⟨(validateMultipleRequest_proper_beginning [requestOf "bat" [], requestOf "batman" []]
      (by decide)).1
      ⟨requestOf "bat" [], by decide, requestOf "batman" [], by decide, by decide, by decide⟩,
   (validateMultipleRequest_proper_beginning [requestOf "batwoman" [], requestOf "batman" []]
      (by decide)).2.1 (by decide)⟩

/-- C17: for an unscalable group, no discovered unit name containing `@.`,
`createSubmitRequest` succeeds exactly when the scale is 1; the request then
has the group name, `DesiredSlices = 1` and `SliceIDs = nil`; any other scale
gives an error, of kind InvalidArgument. -/
theorem createSubmitRequest_unscalable (fs : FileSystem) (group : String) (scale : Int)
    (h : ∀ unit ∈ readUnitFiles fs group, ¬ "@.".data <:+: unit.Name.data) :
    ((∃ req, createSubmitRequest fs group scale = .ok req) ↔ scale = 1) ∧
    (∀ req, createSubmitRequest fs group scale = .ok req →
      req.Group = group ∧ req.DesiredSlices = 1 ∧ req.SliceIDs = none) ∧
    (scale ≠ 1 → ∃ err, createSubmitRequest fs group scale = .error err ∧
      IsInvalidArgument err = true) := by
  have hscal : isScalable (readUnitFiles fs group) = false := by
    cases hs : isScalable (readUnitFiles fs group) with
    | false => rfl
    | true =>
      simp only [isScalable, List.any_eq_true, decide_eq_true_eq] at hs
      obtain ⟨unit, hunit, hinfix⟩ := hs
      exact absurd hinfix (h unit hunit)
  by_cases hone : scale = 1
  · subst hone
    simp [createSubmitRequest, hscal]
  · refine ⟨?_, ?_, ?_⟩
    · simp [createSubmitRequest, hscal, hone]
    · intro req hreq
      simp [createSubmitRequest, hscal, hone] at hreq
    · intro _
      exact ⟨maskAny invalidArgumentError, by simp [createSubmitRequest, hscal, hone],
        by simp [IsInvalidArgument, maskAny, invalidArgumentError]⟩

/-- C17, at the file system of the tests: `foo/foo-1.service` with scale 1
gives the request, with scale 3 an error. -/
theorem createSubmitRequest_unscalable_witness :
    (∃ req, createSubmitRequest (givenFileSystemWithSingleUnitGroup "foo") "foo" 1 = .ok req ∧
      req.Group = "foo" ∧ req.DesiredSlices = 1 ∧ req.SliceIDs = none) ∧
    (∃ err, createSubmitRequest (givenFileSystemWithSingleUnitGroup "foo") "foo" 3
      = .error err ∧ IsInvalidArgument err = true) :=
  ⟨by
    obtain ⟨req, hreq⟩ := (createSubmitRequest_unscalable
      (givenFileSystemWithSingleUnitGroup "foo") "foo" 1 (by decide)).1.2 rfl
    exact ⟨req, hreq, (createSubmitRequest_unscalable
      (givenFileSystemWithSingleUnitGroup "foo") "foo" 1 (by decide)).2.1 req hreq⟩,
   (createSubmitRequest_unscalable
      (givenFileSystemWithSingleUnitGroup "foo") "foo" 3 (by decide)).2.2 (by decide)⟩

/-- C18: for a scalable group, some discovered unit name containing `@.`,
`createSubmitRequest` succeeds for every scale and returns a request with the
group name, `DesiredSlices` equal to the scale and `SliceIDs` an empty list
that is not `nil`. -/
theorem createSubmitRequest_scalable (fs : FileSystem) (group : String) (scale : Int)
    (h : ∃ unit ∈ readUnitFiles fs group, "@.".data <:+: unit.Name.data) :
    ∃ req, createSubmitRequest fs group scale = .ok req ∧
      req.Group = group ∧ req.DesiredSlices = scale ∧ req.SliceIDs = some [] ∧
      req.SliceIDs ≠ none := by
  have hscal : isScalable (readUnitFiles fs group) = true := by
    simp only [isScalable, List.any_eq_true, decide_eq_true_eq]
    exact h
  exact ⟨{ Group := group, Units := readUnitFiles fs group, DesiredSlices := scale,
           SliceIDs := some [] },
    by simp only [createSubmitRequest, hscal, if_true], rfl, rfl, rfl, by simp⟩

/-- C18, at the file system of the tests: `foo/foo-1@.service` with scale 3. -/
theorem createSubmitRequest_scalable_witness :
    ∃ req, createSubmitRequest (givenFileSystemWithSliceableUnitGroup "foo") "foo" 3 = .ok req ∧
      req.Group = "foo" ∧ req.DesiredSlices = 3 ∧ req.SliceIDs = some [] ∧
      req.SliceIDs ≠ none :=
  createSubmitRequest_scalable (givenFileSystemWithSliceableUnitGroup "foo") "foo" 3
    ⟨{ Name := "foo-1@.service", Content := "some content" }, by decide, by decide⟩

/-! ### The two comparisons of the grouper -/

/-- C21: for a list whose names all parse, `allHashesEqual` returns without
error, and it returns true exactly when any two statuses of the same unit base
(a status and itself included) have equal UnitHash on any two of their
machines; so a list in which statuses of the same base have no machines, or
no two machines of the same base differ, gives true. -/
theorem allHashesEqual_characterised (c : Common) (usl : List UnitStatus)
    (hparse : ∀ us ∈ usl, (sliceIDOf c us).isSome = true) :
    ∃ hashesEqual, allHashesEqual c usl = .ok hashesEqual ∧
      (hashesEqual = true ↔
        ∀ us1 ∈ usl, ∀ us2 ∈ usl, c.UnitBase us1.Name = c.UnitBase us2.Name →
          ∀ m1 ∈ us1.Machine, ∀ m2 ∈ us2.Machine, m1.UnitHash = m2.UnitHash) ∧
      ((∀ us ∈ usl, us.Machine = []) → hashesEqual = true) := by
  obtain ⟨hashesEqual, hrun, hiff⟩ := allHashesEqual_ok c usl hparse
  refine ⟨hashesEqual, hrun, hiff, ?_⟩
  intro hnone
  refine hiff.2 ?_
  intro us1 h1 _ _ _ m1 hm1
  rw [hnone us1 h1] at hm1
  exact absurd hm1 (List.not_mem_nil _)

/-- C21, at a list with a unit without machines and a unit of another base
with another hash: the result is true; with the changed hash in the same base
it is false. -/
theorem allHashesEqual_characterised_witness :
    allHashesEqual specCommon mixedBasesInput = .ok true ∧
    allHashesEqual specCommon unitHashDiffsInput = .ok false ∧
    ∃ hashesEqual, allHashesEqual specCommon mixedBasesInput = .ok hashesEqual ∧
      (hashesEqual = true ↔
        ∀ us1 ∈ mixedBasesInput, ∀ us2 ∈ mixedBasesInput,
          specCommon.UnitBase us1.Name = specCommon.UnitBase us2.Name →
          ∀ m1 ∈ us1.Machine, ∀ m2 ∈ us2.Machine, m1.UnitHash = m2.UnitHash) ∧
      ((∀ us ∈ mixedBasesInput, us.Machine = []) → hashesEqual = true) :=
  ⟨by decide, by decide, allHashesEqual_characterised specCommon mixedBasesInput (by decide)⟩

theorem statesAgree_iff_views (usl : List UnitStatus) :
    statesAgree usl ↔
      ∀ v1 ∈ usl.map stateView, ∀ v2 ∈ usl.map stateView,
        v1.1 = v2.1 ∧ v1.2.1 = v2.2.1 ∧ ∀ a ∈ v1.2.2, ∀ b ∈ v2.2.2, a = b := by
  unfold statesAgree
  constructor
  · intro h v1 hv1 v2 hv2
    obtain ⟨us1, h1, rfl⟩ := List.mem_map.1 hv1
    obtain ⟨us2, h2, rfl⟩ := List.mem_map.1 hv2
    obtain ⟨hc, hd, hm⟩ := h us1 h1 us2 h2
    refine ⟨hc, hd, ?_⟩
    intro a ha b hb
    obtain ⟨m1, hm1, rfl⟩ := List.mem_map.1 ha
    obtain ⟨m2, hm2, rfl⟩ := List.mem_map.1 hb
    exact hm m1 hm1 m2 hm2
  · intro h us1 h1 us2 h2
    obtain ⟨hc, hd, hm⟩ := h (stateView us1) (List.mem_map.2 ⟨us1, h1, rfl⟩)
      (stateView us2) (List.mem_map.2 ⟨us2, h2, rfl⟩)
    refine ⟨hc, hd, ?_⟩
    intro m1 hm1 m2 hm2
    exact hm m1.SystemdActive (List.mem_map.2 ⟨m1, hm1, rfl⟩)
      m2.SystemdActive (List.mem_map.2 ⟨m2, hm2, rfl⟩)

/-- C22: `allStatesEqual` returns true exactly when all elements have the same
Current and the same Desired and any two machines, of any two elements or of
one, have the same SystemdActive; two lists that agree, element by element, on
Current, Desired and the SystemdActive of the machines get the same result,
whatever their Name, SliceID, SystemdSub, UnitHash, IP and machine ID are; the
empty list gives true. -/
theorem allStatesEqual_characterised (usl : List UnitStatus) :
    (allStatesEqual usl = true ↔
      ∀ us1 ∈ usl, ∀ us2 ∈ usl, us1.Current = us2.Current ∧ us1.Desired = us2.Desired ∧
        ∀ m1 ∈ us1.Machine, ∀ m2 ∈ us2.Machine, m1.SystemdActive = m2.SystemdActive) ∧
    (∀ other : List UnitStatus, other.map stateView = usl.map stateView →
      allStatesEqual other = allStatesEqual usl) ∧
    allStatesEqual [] = true := by
  refine ⟨allStatesEqual_iff usl, ?_, rfl⟩
  intro other hviews
  rw [allStatesEqual_eq_decide, allStatesEqual_eq_decide]
  have : statesAgree other ↔ statesAgree usl := by
    rw [statesAgree_iff_views, statesAgree_iff_views, hviews]
  simp only [this]

/-! ### Where more than one row matches -/

theorem matchingRows_length_le_one_of_active (fc fd sa ss : String)
    (hfc : ¬ "inactive" = fc) (hsa : "active" = sa ∨ "reloading" = sa) :
    (matchingRows fc fd sa ss).length ≤ 1 := by
  by_cases t0 : "stop-sigterm" = ss
  · subst t0
    rcases hsa with rfl | rfl <;>
      simp [matchingRows, StatusIndex, List.filter_cons, rowMatches, matchState, hfc] <;> try (split <;> simp)
  by_cases t1 : "stop-post" = ss
  · subst t1
    rcases hsa with rfl | rfl <;>
      simp [matchingRows, StatusIndex, List.filter_cons, rowMatches, matchState, hfc] <;> try (split <;> simp)
  by_cases t2 : "stop" = ss
  · subst t2
    rcases hsa with rfl | rfl <;>
      simp [matchingRows, StatusIndex, List.filter_cons, rowMatches, matchState, hfc] <;> try (split <;> simp)
  by_cases t3 : "auto-restart" = ss
  · subst t3
    rcases hsa with rfl | rfl <;>
      simp [matchingRows, StatusIndex, List.filter_cons, rowMatches, matchState, hfc] <;> try (split <;> simp)
  by_cases t4 : "launched" = ss
  · subst t4
    rcases hsa with rfl | rfl <;>
      simp [matchingRows, StatusIndex, List.filter_cons, rowMatches, matchState, hfc] <;> try (split <;> simp)
  by_cases t5 : "start-pre" = ss
  · subst t5
    rcases hsa with rfl | rfl <;>
      simp [matchingRows, StatusIndex, List.filter_cons, rowMatches, matchState, hfc] <;> try (split <;> simp)
  by_cases t6 : "start-post" = ss
  · subst t6
    rcases hsa with rfl | rfl <;>
      simp [matchingRows, StatusIndex, List.filter_cons, rowMatches, matchState, hfc] <;> try (split <;> simp)
  by_cases t7 : "start" = ss
  · subst t7
    rcases hsa with rfl | rfl <;>
      simp [matchingRows, StatusIndex, List.filter_cons, rowMatches, matchState, hfc] <;> try (split <;> simp)
  by_cases t8 : "dead" = ss
  · subst t8
    rcases hsa with rfl | rfl <;>
      simp [matchingRows, StatusIndex, List.filter_cons, rowMatches, matchState, hfc] <;> try (split <;> simp)
  by_cases t9 : "exited" = ss
  · subst t9
    rcases hsa with rfl | rfl <;>
      simp [matchingRows, StatusIndex, List.filter_cons, rowMatches, matchState, hfc] <;> try (split <;> simp)
  by_cases t10 : "running" = ss
  · subst t10
    rcases hsa with rfl | rfl <;>
      simp [matchingRows, StatusIndex, List.filter_cons, rowMatches, matchState, hfc] <;> try (split <;> simp)
  rcases hsa with rfl | rfl <;>
    simp [matchingRows, StatusIndex, List.filter_cons, rowMatches, matchState, hfc, t0, t1, t2, t3, t4, t5, t6, t7, t8, t9, t10]

theorem matchingRows_length_le_one (fc fd sa ss : String)
    (h : ¬ (fc = "inactive" ∧ fd = "launched" ∧ sa = "active" ∧ ss = "running")) :
    (matchingRows fc fd sa ss).length ≤ 1 := by
  by_cases hfc : fc = "inactive"
  · subst hfc
    have h2 : ¬ (("launched" = fd ∧ "active" = sa) ∧ "running" = ss) := by
      rintro ⟨⟨rfl, rfl⟩, rfl⟩
      exact h ⟨rfl, rfl, rfl, rfl⟩
    simp [matchingRows, StatusIndex, List.filter_cons, rowMatches, matchState, h2]
  have hfc2 : ¬ "inactive" = fc := fun h => hfc h.symm
  by_cases s0 : "inactive" = sa
  · subst s0
    simp [matchingRows, StatusIndex, List.filter_cons, rowMatches, matchState, hfc2]
    split <;> simp
  by_cases s1 : "failed" = sa
  · subst s1
    simp [matchingRows, StatusIndex, List.filter_cons, rowMatches, matchState, hfc2]
    split <;> simp
  by_cases s2 : "activating" = sa
  · subst s2
    simp [matchingRows, StatusIndex, List.filter_cons, rowMatches, matchState, hfc2]
    split <;> simp
  by_cases s3 : "deactivating" = sa
  · subst s3
    simp [matchingRows, StatusIndex, List.filter_cons, rowMatches, matchState, hfc2]
    split <;> simp
  by_cases s4 : "active" = sa
  · exact matchingRows_length_le_one_of_active fc fd sa ss hfc2 (Or.inl s4)
  by_cases s5 : "reloading" = sa
  · exact matchingRows_length_le_one_of_active fc fd sa ss hfc2 (Or.inr s5)
  simp [matchingRows, StatusIndex, List.filter_cons, rowMatches, matchState, hfc2, s0, s1, s2, s3, s4, s5]

theorem warnings_ne_nil_iff (fc fd sa ss : String) :
    (AggregateStatus fc fd sa ss).warnings ≠ [] ↔ 1 < (matchingRows fc fd sa ss).length := by
  rw [aggregateStatus_of_matching]
  cases matchingRows fc fd sa ss with
  | nil => simp
  | cons first rest =>
    cases rest with
    | nil => simp
    | cons second rest => simp

/-- C23: more than one row of `StatusIndex` matches a tuple exactly when the
tuple is `(inactive, launched, active, running)`, where two rows match; for
every other tuple at most one row matches; and `AggregateStatus` writes its
warning for that tuple only. -/
theorem multiple_match_only_at_overlap (fc fd sa ss : String) :
    (1 < (matchingRows fc fd sa ss).length ↔
      fc = "inactive" ∧ fd = "launched" ∧ sa = "active" ∧ ss = "running") ∧
    ((AggregateStatus fc fd sa ss).warnings ≠ [] ↔
      fc = "inactive" ∧ fd = "launched" ∧ sa = "active" ∧ ss = "running") ∧
    ((matchingRows fc fd sa ss).length ≤ 1 ∨
      (fc = "inactive" ∧ fd = "launched" ∧ sa = "active" ∧ ss = "running")) ∧
    (matchingRows "inactive" "launched" "active" "running").length = 2 := by
  have hiff : 1 < (matchingRows fc fd sa ss).length ↔
      fc = "inactive" ∧ fd = "launched" ∧ sa = "active" ∧ ss = "running" := by
    constructor
    · intro hlen
      by_contra hnot
      have := matchingRows_length_le_one fc fd sa ss hnot
      omega
    · rintro ⟨rfl, rfl, rfl, rfl⟩
      decide
  refine ⟨hiff, (warnings_ne_nil_iff fc fd sa ss).trans hiff, ?_, by decide⟩
  by_cases hspecial : fc = "inactive" ∧ fd = "launched" ∧ sa = "active" ∧ ss = "running"
  · exact Or.inr hspecial
  · exact Or.inl (matchingRows_length_le_one fc fd sa ss hspecial)

/-! ### Reading the first member of a cohort -/

/-- With helpers that give a slice ID that is not a suffix of the name, the
cohort of the pivot is empty and the collapse branch reads `grouped[0]` of an
empty slice. -/
theorem group_reads_empty_cohort_without_suffix :
    Group constantSliceCommon [givenSingleUnitStatus "main" "1"]
      = .error Fault.indexOutOfRange := by
  decide

/-- C24: for a list whose names all parse, the slice ID of a name being a
suffix of the name with its extension stripped, every pivot is a member of
the cohort `groupUnitStatus` returns for it, so no cohort `Group` reads the
first element of is empty: `Group` returns a list and never stops with an
index out of range. -/
theorem group_pivot_in_own_cohort (c : Common) (usl : List UnitStatus)
    (hparse : ∀ us ∈ usl, (sliceIDOf c us).isSome = true)
    (hsuffix : ∀ us ∈ usl, ∀ ID ∈ sliceIDOf c us,
      stringsHasSuffix (c.ExtExpStrip us.Name) ID = true) :
    (∀ us ∈ usl, ∃ grouped ID, groupUnitStatus c usl us = .ok (grouped, ID) ∧
      us ∈ grouped ∧ grouped ≠ []) ∧
    Group c usl ≠ .error Fault.indexOutOfRange ∧
    ∃ rows, Group c usl = .ok rows := by
  have hok : ∃ rows, Group c usl = .ok rows := by
    obtain ⟨hashesEqual, hrun, _⟩ := allHashesEqual_ok c usl hparse
    simp only [Group, hrun]
    rw [groupLoop_as_specified c usl hashesEqual hparse hsuffix usl (fun _ h => h) [] []]
    exact ⟨_, rfl⟩
  refine ⟨?_, ?_, hok⟩
  · intro us hus
    obtain ⟨ID, hID⟩ := Option.isSome_iff_exists.1 (hparse us hus)
    have hin : us ∈ cohortOf c usl ID := List.mem_filter.2 ⟨hus, hsuffix us hus ID hID⟩
    exact ⟨cohortOf c usl ID, ID, groupUnitStatus_ok c usl us ID hID, hin,
      List.ne_nil_of_mem hin⟩
  · obtain ⟨rows, hrows⟩ := hok
    rw [hrows]
    simp

/-- C24, at the input of the test with four units in the slices 1, 1, 2, 2. -/
theorem group_pivot_in_own_cohort_witness :
    (∀ us ∈ noDiffInput, ∃ grouped ID, groupUnitStatus specCommon noDiffInput us
        = .ok (grouped, ID) ∧ us ∈ grouped ∧ grouped ≠ []) ∧
    Group specCommon noDiffInput ≠ .error Fault.indexOutOfRange ∧
    ∃ rows, Group specCommon noDiffInput = .ok rows :=
  group_pivot_in_own_cohort specCommon noDiffInput (by decide) (by decide)

/-! ### The scan of `UnitHasStatus` -/

theorem aggregateStatus_err_kind (fc fd sa ss : String) (err : Error)
    (h : (AggregateStatus fc fd sa ss).err = some err) : IsInvalidUnitStatus err = true := by
  rw [aggregateStatus_of_matching] at h
  cases hrows : matchingRows fc fd sa ss with
  | nil =>
    rw [hrows] at h
    simp only [Option.some.injEq] at h
    subst h
    simp [IsInvalidUnitStatus, maskAnyf]
  | cons first rest =>
    rw [hrows] at h
    simp at h

theorem unitHasStatusLoop_scan (us : UnitStatus) (statuses : List Status)
    (machines : List MachineStatus) :
    match machines.find? (decidesScan us statuses) with
    | none =>
      unitHasStatusLoop us statuses machines
        = { result := false, err := none,
            aggregations := machines.map (aggregateMachine us) }
    | some ms =>
      (unitHasStatusLoop us statuses machines).aggregations
        = (machines.takeWhile (fun m => !decidesScan us statuses m)).map (aggregateMachine us)
          ++ [aggregateMachine us ms] ∧
      (if (aggregateMachine us ms).err.isSome then
        (unitHasStatusLoop us statuses machines).result = false ∧
        ∃ err, (unitHasStatusLoop us statuses machines).err = some err ∧
          IsInvalidUnitStatus err = true
      else
        (unitHasStatusLoop us statuses machines).result = true ∧
        (unitHasStatusLoop us statuses machines).err = none) := by
  induction machines with
  | nil => simp [unitHasStatusLoop]
  | cons m0 rest ih =>
    cases herr : (aggregateMachine us m0).err with
    | some err =>
      have hdec : decidesScan us statuses m0 = true := by simp [decidesScan, herr]
      have herr2 : (AggregateStatus us.Current us.Desired m0.SystemdActive m0.SystemdSub).err
          = some err := herr
      simp only [List.find?_cons, hdec, List.takeWhile_cons, Bool.not_true, herr,
        Option.isSome_some, if_true]
      unfold unitHasStatusLoop
      simp only [herr2, maskAny]
      simp [aggregateMachine, aggregateStatus_err_kind _ _ _ _ err herr2]
    | none =>
      have herr2 : (AggregateStatus us.Current us.Desired m0.SystemdActive m0.SystemdSub).err
          = none := herr
      by_cases hin : statuses.contains (aggregateMachine us m0).status = true
      · have hdec : decidesScan us statuses m0 = true := by
          simp only [decidesScan, hin, Bool.or_true]
        have hany : statuses.any (fun status =>
            decide ((AggregateStatus us.Current us.Desired m0.SystemdActive
              m0.SystemdSub).status = status)) = true := by
          simpa [aggregateMachine] using hin
        simp only [List.find?_cons, hdec, List.takeWhile_cons, Bool.not_true, herr,
          Option.isSome_none, Bool.false_eq_true, if_false]
        unfold unitHasStatusLoop
        simp only [herr2, hany, if_true]
        simp [aggregateMachine]
      · have hdec : decidesScan us statuses m0 = false := by
          simpa [decidesScan, herr] using hin
        have hany : ¬ statuses.any (fun status =>
            decide ((AggregateStatus us.Current us.Desired m0.SystemdActive
              m0.SystemdSub).status = status)) = true := by
          simpa [aggregateMachine] using hin
        have hstep : unitHasStatusLoop us statuses (m0 :: rest)
            = { unitHasStatusLoop us statuses rest with
                aggregations := aggregateMachine us m0
                  :: (unitHasStatusLoop us statuses rest).aggregations } := by
          conv_lhs => unfold unitHasStatusLoop
          simp only [herr2, hany, Bool.false_eq_true, if_false]
          rfl
        simp only [List.find?_cons, hdec, List.takeWhile_cons, Bool.not_false, if_true,
          List.map_cons, List.cons_append]
        cases hfind : rest.find? (decidesScan us statuses) with
        | none =>
          rw [hfind] at ih
          simp only at ih ⊢
          rw [hstep, ih]
        | some ms =>
          rw [hfind] at ih
          simp only at ih ⊢
          rw [hstep]
          simp only
          refine ⟨by rw [ih.1], ih.2⟩

/-- C25: for a non-empty set of statuses `UnitHasStatus` scans the machines in
order and stops at the first machine whose tuple fails to aggregate or
aggregates into the set (the aggregations made are those of the machines up
to and including it): it returns false with an error of kind InvalidUnitStatus
if that machine fails to aggregate, true without error if it aggregates into
the set, and false without error, after aggregating every machine, if there
is no such machine, as for a unit without machines. -/
theorem unitHasStatus_stops_at_first_decisive (us : UnitStatus) (statuses : List Status)
    (h : statuses ≠ []) :
    (match us.Machine.find? (decidesScan us statuses) with
     | none =>
       UnitHasStatus us statuses
         = { result := false, err := none,
             aggregations := us.Machine.map (aggregateMachine us) }
     | some ms =>
       (UnitHasStatus us statuses).aggregations
         = (us.Machine.takeWhile (fun m => !decidesScan us statuses m)).map
             (aggregateMachine us) ++ [aggregateMachine us ms] ∧
       (if (aggregateMachine us ms).err.isSome then
         (UnitHasStatus us statuses).result = false ∧
         ∃ err, (UnitHasStatus us statuses).err = some err ∧ IsInvalidUnitStatus err = true
       else
         (UnitHasStatus us statuses).result = true ∧
         (UnitHasStatus us statuses).err = none)) ∧
    (us.Machine = [] →
      UnitHasStatus us statuses = { result := false, err := none, aggregations := [] }) := by
  have hlen : ¬ statuses.length = 0 := fun h0 => h (List.length_eq_zero.1 h0)
  have hloop : UnitHasStatus us statuses = unitHasStatusLoop us statuses us.Machine := by
    unfold UnitHasStatus
    rw [if_neg hlen]
  refine ⟨?_, ?_⟩
  · rw [hloop]
    exact unitHasStatusLoop_scan us statuses us.Machine
  · intro hnone
    rw [hloop, hnone]
    rfl

/-- C25, at two units on two machines each: when the first machine matches no
rule the result is false with InvalidUnitStatus although the second aggregates
to stopped, and one aggregation is made; when the first aggregates to stopped
the result is true although the second matches no rule. -/
theorem unitHasStatus_stops_at_first_decisive_witness :
    ((UnitHasStatus unitWithUnknownFirstMachine [StatusStopped]).result = false ∧
      (UnitHasStatus unitWithUnknownFirstMachine [StatusStopped]).aggregations.length = 1 ∧
      (UnitHasStatus unitWithUnknownLastMachine [StatusStopped]).result = true ∧
      (UnitHasStatus unitWithUnknownLastMachine [StatusStopped]).err = none ∧
      (UnitHasStatus unitWithUnknownLastMachine [StatusStopped]).aggregations.length = 1) ∧
    ((match unitWithUnknownFirstMachine.Machine.find?
          (decidesScan unitWithUnknownFirstMachine [StatusStopped]) with
     | none =>
       UnitHasStatus unitWithUnknownFirstMachine [StatusStopped]
         = { result := false, err := none,
             aggregations := unitWithUnknownFirstMachine.Machine.map
               (aggregateMachine unitWithUnknownFirstMachine) }
     | some ms =>
       (UnitHasStatus unitWithUnknownFirstMachine [StatusStopped]).aggregations
         = (unitWithUnknownFirstMachine.Machine.takeWhile
              (fun m => !decidesScan unitWithUnknownFirstMachine [StatusStopped] m)).map
             (aggregateMachine unitWithUnknownFirstMachine)
           ++ [aggregateMachine unitWithUnknownFirstMachine ms] ∧
       (if (aggregateMachine unitWithUnknownFirstMachine ms).err.isSome then
         (UnitHasStatus unitWithUnknownFirstMachine [StatusStopped]).result = false ∧
         ∃ err, (UnitHasStatus unitWithUnknownFirstMachine [StatusStopped]).err = some err ∧
           IsInvalidUnitStatus err = true
       else
         (UnitHasStatus unitWithUnknownFirstMachine [StatusStopped]).result = true ∧
         (UnitHasStatus unitWithUnknownFirstMachine [StatusStopped]).err = none)) ∧
    (unitWithUnknownFirstMachine.Machine = [] →
      UnitHasStatus unitWithUnknownFirstMachine [StatusStopped]
        = { result := false, err := none, aggregations := [] })) :=
  ⟨by decide,
   unitHasStatus_stops_at_first_decisive unitWithUnknownFirstMachine [StatusStopped]
    (by decide)⟩

end Formica
